import Mathlib

/-!
# WAVEdit: a shallow embedding of `wavedit.c`

The program reads the 44-byte header of a WAV file into a `WAVHeader` struct,
validates it (`isWAV`), and then reports on the file, rewrites the sample rate,
or reverses the sample data in place.

Conventions of the embedding

* A byte is a `Nat` below 256; `uint16_t` and `uint32_t` values are `Nat`s
  below `2^16` and `2^32`, with `% 2^32` written wherever the C arithmetic is
  done in `unsigned int`.  `int` is `Int`, with `toInt32` for the conversion
  from `uint32_t`.
* A C string is the list of its bytes before the terminating NUL.
* A function that may call `exit(EXIT_FAILURE)` returns `Except Failure _`.
* The file named by `argv[1]` is the list of its bytes.
* Storage that C leaves indeterminate (an automatic variable before it is
  assigned, memory past the end of an array) is a parameter, `Indeterminate`.
* The target is a little-endian machine with 32-bit `int` and 64-bit `size_t`
  on which `struct WAVHeader` has no padding (every field sits at a multiple
  of its own size), so `sizeof(WAVHeader) = 44`.
* The `float` quotient of `printInfo` is a parameter of the statements about
  the duration; `floatDiv` is its IEEE 754 binary32 model (round to nearest,
  ties to even), used where a value is computed.
* A file that `fileCheck` could open for reading can be opened for update by
  `writeBack` and the reversal routines, and `fread`, `fseek` and `fwrite` do
  not fail for reasons other than the end of the file.
-/

namespace WAVEdit

/-! ## Data model -/

/-- The struct `WAVHeader` (wavedit.c lines 9-23), fields in declaration order. -/
structure WAVHeader where
  riffId : List Nat
  fileSize : Nat
  waveId : List Nat
  fmtId : List Nat
  fmtSize : Nat
  dataFormat : Nat
  numberOfChannels : Nat
  samplesPerSecond : Nat
  bytesPerSecond : Nat
  blockAlignment : Nat
  bitsPerSample : Nat
  dataId : List Nat
  dataSize : Nat
deriving DecidableEq, Repr

/-- A `char[4]` value: four bytes. -/
def IsTag (t : List Nat) : Prop := t.length = 4 ∧ ∀ x ∈ t, x < 256

instance (t : List Nat) : Decidable (IsTag t) := by
  unfold IsTag; infer_instance

/-- The values a `WAVHeader` struct can hold: every field within its C type. -/
def WAVHeader.WF (h : WAVHeader) : Prop :=
  IsTag h.riffId ∧ h.fileSize < 2 ^ 32 ∧ IsTag h.waveId ∧ IsTag h.fmtId ∧
  h.fmtSize < 2 ^ 32 ∧ h.dataFormat < 2 ^ 16 ∧ h.numberOfChannels < 2 ^ 16 ∧
  h.samplesPerSecond < 2 ^ 32 ∧ h.bytesPerSecond < 2 ^ 32 ∧
  h.blockAlignment < 2 ^ 16 ∧ h.bitsPerSample < 2 ^ 16 ∧ IsTag h.dataId ∧
  h.dataSize < 2 ^ 32

instance (h : WAVHeader) : Decidable h.WF := by
  unfold WAVHeader.WF; infer_instance

/-- The bytes of an ASCII string literal, without the terminating NUL. -/
def cstr (s : String) : List Nat := s.toList.map Char.toNat

/-- How the process ends when it calls `exit(EXIT_FAILURE)`: through
`invalidFail` (lines 43-47) or through `checkRate` (lines 124-127). -/
inductive Failure where
  | invalidWAV
  | rateOutOfRange
deriving DecidableEq, Repr

instance {ε α : Type} [DecidableEq ε] [DecidableEq α] : DecidableEq (Except ε α)
  | .ok a, .ok b => if h : a = b then isTrue (by rw [h]) else isFalse (by simpa using h)
  | .error a, .error b => if h : a = b then isTrue (by rw [h]) else isFalse (by simpa using h)
  | .ok _, .error _ => isFalse (by simp)
  | .error _, .ok _ => isFalse (by simp)

/-! ## C library functions used by the program -/

/-- C `strncmp(s1, s2, n)`: compares at most `n` characters as unsigned bytes
and stops after a NUL.  The end of a list stands for the NUL terminator. -/
def strncmp : List Nat → List Nat → Nat → Int
  | _, _, 0 => 0
  | s1, s2, n + 1 =>
    let c1 := s1.headD 0
    let c2 := s2.headD 0
    if c1 ≠ c2 then (c1 : Int) - (c2 : Int)
    else if c1 = 0 then 0
    else strncmp s1.tail s2.tail n

/-- C `strcmp(s1, s2)`: `strncmp` without a bound (neither string is longer
than the bound used here). -/
def strcmp (s1 s2 : List Nat) : Int :=
  strncmp s1 s2 (max s1.length s2.length + 1)

/-- Conversion of an `unsigned int` value to `int` (two's complement). -/
def toInt32 (x : Nat) : Int :=
  if x % 2 ^ 32 < 2 ^ 31 then ((x % 2 ^ 32 : Nat) : Int)
  else ((x % 2 ^ 32 : Nat) : Int) - 2 ^ 32

/-- Conversion of an `int` value to `uint32_t`. -/
def toUInt32 (x : Int) : Nat := (x % 2 ^ 32).toNat

/-! ## Validation -/

/-- The function `invalidFail` (lines 43-47): prints and exits with failure. -/
def invalidFail {α : Type} : Except Failure α := .error .invalidWAV

/-- The local `number` of `isWAV` (line 111):
`samplesPerSecond * (bitsPerSample / 8) * numberOfChannels` in `unsigned int`. -/
def isWAV.number (header : WAVHeader) : Nat :=
  (header.samplesPerSecond * (header.bitsPerSample / 8) % 2 ^ 32
    * header.numberOfChannels) % 2 ^ 32

/-- The function `isWAV` (lines 101-115): `.ok ()` when it returns, `.error` when one
of the checks calls `invalidFail`. -/
def isWAV (header : WAVHeader) : Except Failure Unit :=
  if strncmp header.riffId (cstr "RIFF") 4 ≠ 0 then invalidFail
  else if strncmp header.waveId (cstr "WAVE") 4 ≠ 0 then invalidFail
  else if strncmp header.fmtId (cstr "fmt ") 4 ≠ 0 then invalidFail
  else if strncmp header.dataId (cstr "data") 4 ≠ 0 then invalidFail
  else if header.fmtSize ≠ 16 then invalidFail
  else if header.dataFormat ≠ 1 then invalidFail
  else if header.numberOfChannels ≠ 1 ∧ header.numberOfChannels ≠ 2 then invalidFail
  else if header.samplesPerSecond < 1 ∨ header.samplesPerSecond > 192000 then invalidFail
  else if header.bitsPerSample ≠ 8 ∧ header.bitsPerSample ≠ 16 then invalidFail
  else if header.bytesPerSecond ≠ isWAV.number header then invalidFail
  else if header.blockAlignment ≠ header.bitsPerSample / 8 * header.numberOfChannels then
    invalidFail
  else .ok ()

/-- The function `checkRate` (lines 123-129). -/
def checkRate (newRate : Nat) : Except Failure Unit :=
  if newRate < 1 ∨ newRate > 192000 then .error .rateOutOfRange
  else .ok ()

/-! ## Header codec: the struct as bytes -/

/-- The size `sizeof(WAVHeader)` of the header struct. -/
def sizeofWAVHeader : Nat := 44

/-- The `uint16_t` stored little-endian at offset `k` of `b`. -/
def u16At (b : List Nat) (k : Nat) : Nat :=
  b.getD k 0 + 256 * b.getD (k + 1) 0

/-- The `uint32_t` stored little-endian at offset `k` of `b`. -/
def u32At (b : List Nat) (k : Nat) : Nat :=
  b.getD k 0 + 256 * b.getD (k + 1) 0 + 65536 * b.getD (k + 2) 0
    + 16777216 * b.getD (k + 3) 0

/-- The two bytes of a `uint16_t`, little-endian. -/
def bytes16 (x : Nat) : List Nat := [x % 256, x / 256 % 256]

/-- The four bytes of a `uint32_t`, little-endian. -/
def bytes32 (x : Nat) : List Nat :=
  [x % 256, x / 256 % 256, x / 65536 % 256, x / 16777216 % 256]

/-- The struct whose storage holds the 44 bytes `b`: what
`fread(header, sizeof(*header), 1, file)` (line 72) leaves in `*header`.
Fields in declaration order, each at the offset the sizes before it give. -/
def decode (b : List Nat) : WAVHeader where
  riffId := (b.drop 0).take 4
  fileSize := u32At b 4
  waveId := (b.drop 8).take 4
  fmtId := (b.drop 12).take 4
  fmtSize := u32At b 16
  dataFormat := u16At b 20
  numberOfChannels := u16At b 22
  samplesPerSecond := u32At b 24
  bytesPerSecond := u32At b 28
  blockAlignment := u16At b 32
  bitsPerSample := u16At b 34
  dataId := (b.drop 36).take 4
  dataSize := u32At b 40

/-- The storage of a struct: the bytes `fwrite(header, sizeof(*header), 1, file)`
(line 141) sends to the file. -/
def encode (h : WAVHeader) : List Nat :=
  h.riffId ++ bytes32 h.fileSize ++ h.waveId ++ h.fmtId ++ bytes32 h.fmtSize
    ++ bytes16 h.dataFormat ++ bytes16 h.numberOfChannels
    ++ bytes32 h.samplesPerSecond ++ bytes32 h.bytesPerSecond
    ++ bytes16 h.blockAlignment ++ bytes16 h.bitsPerSample ++ h.dataId
    ++ bytes32 h.dataSize

/-! ## Files and indeterminate storage -/

/-- The file named by `argv[1]`: its bytes, and the `fwrite` calls the run
has made on it (position and bytes sent), oldest first. -/
structure File where
  content : List Nat
  written : List (Nat × List Nat)
deriving DecidableEq, Repr

/-- Contents of storage the program reads without having assigned it.
`header` is what the struct of `main` holds when `fread` could not deliver
a whole struct; `dataArray k` is byte `k` of `dataArray` where `fread` did
not deliver a whole element; `reversedArray k` is byte `k` of the memory
starting at `reversedArray` before the loop assigns it, the bytes past the end
of the array included. -/
structure Indeterminate where
  header : List Nat
  dataArray : Nat → Nat
  reversedArray : Nat → Nat

/-- The bytes `u start, u (start+1), ...`, `len` of them. -/
def indeterminateBytes (u : Nat → Nat) (start len : Nat) : List Nat :=
  (List.range len).map (fun k => u (start + k))

/-- The first `count` elements of `size` bytes each of a byte sequence. -/
def elements (size : Nat) : Nat → List Nat → List (List Nat)
  | 0, _ => []
  | count + 1, bytes => bytes.take size :: elements size count (bytes.drop size)

/-- An array of `count` elements of `size` bytes after
`fseek(file, pos, SEEK_SET); fread(array, size, count, file)`: the whole
elements the file delivers, the others indeterminate. -/
def freadArray (u : Nat → Nat) (size count : Nat) (file : List Nat) (pos : Nat) :
    List (List Nat) :=
  let avail := file.drop pos
  let k := min count (avail.length / size)
  elements size k avail ++ (elements size count (indeterminateBytes u 0 (size * count))).drop k

/-- The `size * count` bytes `fwrite(array, size, count, file)` takes from memory,
starting at an array that was declared with `declared` elements of `size` bytes
and now holds `array`: the array itself, then, if more is asked for than the
array holds, the memory past its end. -/
def fwriteSource (u : Nat → Nat) (size declared : Nat) (array : List (List Nat))
    (count : Nat) : List Nat :=
  (array.flatten ++ indeterminateBytes u (size * declared) (size * count - size * declared)).take
    (size * count)

/-- Effect of `fseek(file, pos, SEEK_SET); fwrite(...)` sending `bytes`: they
replace the bytes from `pos` on and extend the file if they reach past its
end (a gap before `pos` reads as zeros). -/
def fwrite (file : File) (pos : Nat) (bytes : List Nat) : File where
  content := file.content.take pos ++ List.replicate (pos - file.content.length) 0
    ++ bytes ++ file.content.drop (pos + bytes.length)
  written := file.written ++ [(pos, bytes)]

/-- The function `fileCheck` (lines 56-62): `fopen` of a file that cannot be opened
gives `NULL` and the program exits through `invalidFail`. -/
def fileCheck (disk : Option (List Nat)) : Except Failure (List Nat) :=
  match disk with
  | none => invalidFail
  | some content => .ok content

/-- The function `readFile` (lines 71-74): the struct after
`fread(header, sizeof(*header), 1, file)`. A file shorter than the struct
leaves it indeterminate. -/
def readFile (mem : Indeterminate) (file : List Nat) : WAVHeader :=
  if sizeofWAVHeader ≤ file.length then decode (file.take sizeofWAVHeader)
  else decode mem.header

/-- The function `writeBack` (lines 138-143). -/
def writeBack (file : File) (header : WAVHeader) : File :=
  fwrite file 0 (encode header)

/-! ## Reversal -/

/-- The loop `for (int i = ..., j = ...; i >= 0; i--, j++) reversedArray[j] = dataArray[i];`
of lines 161-163 (177-179, 193-195).  The first argument is `i + 1`, the number of
values `i` still takes before `i >= 0` fails: `0` when `i` is negative.  `j` is
not read after its last increment, so it is kept as a natural number. -/
def reverseLoop (dataArray : List (List Nat)) : Nat → Nat → List (List Nat) → List (List Nat)
  | 0, _, reversedArray => reversedArray
  | i + 1, j, reversedArray =>
    reverseLoop dataArray i (j + 1) (reversedArray.set j (dataArray.getD i []))

/-- The common body of `reverse1`, `reverse2` and `reverse3`, which differ only in
the element type of the two arrays; `size` is its `sizeof`.
`sizeof(reversedArray)` is `size * lengthInSamples`, and that number is what the
code passes to `fwrite` as the element count. -/
def reverseBody (size : Nat) (mem : Indeterminate) (file : File) (lengthInSamples : Nat) :
    File :=
  -- fseek(file, sizeof(WAVHeader), SEEK_SET); fread(dataArray, size, lengthInSamples, file)
  let dataArray := freadArray mem.dataArray size lengthInSamples file.content sizeofWAVHeader
  -- reversedArray[lengthInSamples], declared without an initialiser
  let reversedArray₀ :=
    elements size lengthInSamples (indeterminateBytes mem.reversedArray 0 (size * lengthInSamples))
  -- int i = lengthInSamples - 1: the subtraction is unsigned, the result converted to int
  let i : Int := toInt32 ((lengthInSamples + 2 ^ 32 - 1) % 2 ^ 32)
  let reversedArray := reverseLoop dataArray (i + 1).toNat 0 reversedArray₀
  -- fseek(file, sizeof(WAVHeader), SEEK_SET);
  -- fwrite(reversedArray, size, sizeof(reversedArray), file)
  fwrite file sizeofWAVHeader
    (fwriteSource mem.reversedArray size lengthInSamples reversedArray (size * lengthInSamples))

/-- The function `reverse1` (lines 154-167), arrays of `int8_t`. -/
def reverse1 (mem : Indeterminate) (file : File) (lengthInSamples : Nat) : File :=
  reverseBody 1 mem file lengthInSamples

/-- The function `reverse2` (lines 170-183), arrays of `int32_t`. -/
def reverse2 (mem : Indeterminate) (file : File) (lengthInSamples : Nat) : File :=
  reverseBody 4 mem file lengthInSamples

/-- The function `reverse3` (lines 186-199), arrays of `int16_t`. -/
def reverse3 (mem : Indeterminate) (file : File) (lengthInSamples : Nat) : File :=
  reverseBody 2 mem file lengthInSamples

/-! ## The program -/

/-- What the program prints. -/
inductive Printed where
  | help
  | invalidWAV
  | rateRange
  | info (bitsPerSample samplesPerSecond : Nat) (mono : Bool) (lengthInSamples : Nat)
  | argumentsNotFound
deriving DecidableEq, Repr

/-- How a run ends: `exit code` for `return code` from `main` or `exit(code)`;
`divisionByZero` for an integer division whose divisor is zero. -/
inductive Status where
  | exit (code : Nat)
  | divisionByZero
deriving DecidableEq, Repr

/-- The exit status `EXIT_FAILURE`. -/
def EXIT_FAILURE : Nat := 1

/-- A finished run: how it ended, what it printed, and the file (`none` when it
could not be opened). -/
structure Outcome where
  status : Status
  stdout : List Printed
  file : Option File
deriving DecidableEq, Repr

/-- The function `printInfo` (lines 82-93): the report, `none` when the division of
line 89 has a zero divisor.  The duration in seconds is the `float` quotient of
the reported `lengthInSamples` by the reported `samplesPerSecond`. -/
def printInfo (header : WAVHeader) : Option Printed :=
  if header.blockAlignment = 0 then none
  else
    let lengthInSamples := header.dataSize / header.blockAlignment
    some (.info header.bitsPerSample header.samplesPerSecond
      (decide (header.numberOfChannels = 1)) lengthInSamples)

/-- The `-rate` branch of `main` (lines 219-224), after `isWAV` has returned. -/
def setRate (atoi : List Nat → Int) (file : File) (header : WAVHeader) (arg : List Nat) :
    Except Failure File :=
  let newRate := toUInt32 (atoi arg)
  match checkRate newRate with
  | .error e => .error e
  | .ok () =>
    let header₁ := { header with samplesPerSecond := newRate }
    let header₂ := { header₁ with
      bytesPerSecond :=
        (newRate * header₁.bitsPerSample % 2 ^ 32 / 8 * header₁.numberOfChannels) % 2 ^ 32 }
    .ok (writeBack file header₂)

/-- The `-reverse` branch of `main` (lines 226-236), after `isWAV` has returned:
`none` when the division of line 226 has a zero divisor. -/
def reverseBranch (mem : Indeterminate) (file : File) (header : WAVHeader) : Option File :=
  if header.blockAlignment = 0 then none
  else
    let lengthInSamples := header.dataSize / header.blockAlignment
    if header.numberOfChannels = 1 ∧ header.bitsPerSample = 8 then
      some (reverse1 mem file lengthInSamples)
    else if header.numberOfChannels = 2 ∧ header.bitsPerSample = 16 then
      some (reverse2 mem file lengthInSamples)
    else
      some (reverse3 mem file lengthInSamples)

/-- The function `main` (lines 201-241).  `atoi` is the C library's `atoi`, `disk`
the bytes of the file named `argv[1]` (`none` if it cannot be opened), `argv`
the argument vector, `argv[0]` included. -/
def main (atoi : List Nat → Int) (mem : Indeterminate) (disk : Option (List Nat))
    (argv : List (List Nat)) : Outcome :=
  let argc := argv.length
  if argc = 1 then
    { status := .exit 0, stdout := [.help], file := disk.map (File.mk · []) }
  else
    match fileCheck disk with
    | .error _ => { status := .exit EXIT_FAILURE, stdout := [.invalidWAV], file := none }
    | .ok content =>
      let file : File := ⟨content, []⟩
      let header := readFile mem content
      match isWAV header with
      | .error _ => { status := .exit EXIT_FAILURE, stdout := [.invalidWAV], file := some file }
      | .ok () =>
        if argc = 2 then
          match printInfo header with
          | none => { status := .divisionByZero, stdout := [], file := some file }
          | some report => { status := .exit 0, stdout := [report], file := some file }
        else if argc = 4 ∧ strcmp (argv.getD 2 []) (cstr " -rate") ≠ 0 then
          match setRate atoi file header (argv.getD 3 []) with
          | .error _ =>
            { status := .exit EXIT_FAILURE, stdout := [.rateRange], file := some file }
          | .ok file₁ => { status := .exit 0, stdout := [], file := some file₁ }
        else if argc = 3 ∧ strcmp (argv.getD 2 []) (cstr " -reverse") ≠ 0 then
          match reverseBranch mem file header with
          | none => { status := .divisionByZero, stdout := [], file := some file }
          | some file₁ => { status := .exit 0, stdout := [], file := some file₁ }
        else
          { status := .exit 0, stdout := [.argumentsNotFound], file := some file }

/-- A model of the C library's `atoi` for decimal digit strings with an optional
sign, reduced to the range of `int`. -/
def atoiDigits : List Nat → Nat → Nat
  | [], acc => acc
  | c :: cs, acc => if 48 ≤ c ∧ c ≤ 57 then atoiDigits cs (10 * acc + (c - 48)) else acc

/-- See `atoiDigits`. -/
def atoiC (s : List Nat) : Int :=
  match s with
  | 45 :: cs => toInt32 (toUInt32 (-(atoiDigits cs 0 : Int)))
  | 43 :: cs => toInt32 (atoiDigits cs 0)
  | cs => toInt32 (atoiDigits cs 0)

/-! ## The validity conditions in the words of the specification -/

/-- The header invariants as the specification lists them: the four tags, the
two constants, the three ranges, and the two derived fields. -/
def SpecValid (h : WAVHeader) : Prop :=
  h.riffId = cstr "RIFF" ∧ h.waveId = cstr "WAVE" ∧ h.fmtId = cstr "fmt " ∧
  h.dataId = cstr "data" ∧ h.fmtSize = 16 ∧ h.dataFormat = 1 ∧
  (h.numberOfChannels = 1 ∨ h.numberOfChannels = 2) ∧
  (1 ≤ h.samplesPerSecond ∧ h.samplesPerSecond ≤ 192000) ∧
  (h.bitsPerSample = 8 ∨ h.bitsPerSample = 16) ∧
  h.bytesPerSecond = h.samplesPerSecond * h.blockAlignment ∧
  h.blockAlignment = h.numberOfChannels * (h.bitsPerSample / 8)

instance (h : WAVHeader) : Decidable (SpecValid h) := by
  unfold SpecValid; infer_instance

/-- A stereo 16-bit 44100 Hz header with eight bytes of sample data. -/
def stereo16 : WAVHeader where
  riffId := cstr "RIFF"
  fileSize := 44
  waveId := cstr "WAVE"
  fmtId := cstr "fmt "
  fmtSize := 16
  dataFormat := 1
  numberOfChannels := 2
  samplesPerSecond := 44100
  bytesPerSecond := 176400
  blockAlignment := 4
  bitsPerSample := 16
  dataId := cstr "data"
  dataSize := 8

/-- A mono 8-bit 44100 Hz header with four bytes of sample data. -/
def mono8 : WAVHeader :=
  { stereo16 with
    numberOfChannels := 1, bytesPerSecond := 44100, blockAlignment := 1, bitsPerSample := 8,
    dataSize := 4 }

/-- The stereo 16-bit header with a dataSize of one and a half frames. -/
def stereo16Odd : WAVHeader := { stereo16 with dataSize := 6 }

/-- One more than `2^31`: a frame count that `int` cannot hold once decremented. -/
def hugeCount : Nat := 2 ^ 31 + 1

/-- A mono 8-bit header that announces `2^31 + 1` bytes of sample data. -/
def mono8Huge : WAVHeader := { mono8 with dataSize := hugeCount }

/-- Indeterminate storage that happens to hold the byte `b` everywhere. -/
def fillMem (b : Nat) : Indeterminate := ⟨List.replicate 44 b, fun _ => b, fun _ => b⟩

/-- The command line `wavedit a.wav -reverse`. -/
def reverseArgs : List (List Nat) := [cstr "wavedit", cstr "a.wav", cstr "-reverse"]

/-- The command line `wavedit a.wav -rate 22050`. -/
def rateArgs : List (List Nat) := [cstr "wavedit", cstr "a.wav", cstr "-rate", cstr "22050"]

/-- A stereo 16-bit file with two frames of sample data. -/
def stereo16File : List Nat := encode stereo16 ++ [1, 2, 3, 4, 5, 6, 7, 8]

/-- The stereo 16-bit file with dataFormat 2 in its header, which `isWAV` rejects. -/
def stereo16Format2File : List Nat :=
  encode { stereo16 with dataFormat := 2 } ++ [1, 2, 3, 4, 5, 6, 7, 8]

/-- A mono 8-bit file with four frames of sample data. -/
def mono8File : List Nat := encode mono8 ++ [1, 2, 3, 4]

/-- Frame `j` of a payload cut into frames of `w` bytes. -/
def frame (w : Nat) (payload : List Nat) (j : Nat) : List Nat :=
  (payload.drop (j * w)).take w

/-- The bytes of a file that follow the header. -/
def payloadOf (content : List Nat) : List Nat := content.drop sizeofWAVHeader

/-! ## The header layout in the words of the specification -/

/-- The members of `struct WAVHeader` in declaration order (lines 10-22), each with the
size and the alignment of its type: `char[4]` has size 4 and alignment 1, `uint32_t`
size 4 and alignment 4, `uint16_t` size 2 and alignment 2. -/
def WAVHeader.members : List (Nat × Nat) :=
  [(4, 1), (4, 4), (4, 1), (4, 1), (4, 4), (2, 2), (2, 2), (4, 4), (4, 4), (2, 2), (2, 2),
    (4, 1), (4, 4)]

/-- The offsets a C compiler gives the members of a struct, the next free byte being
`pos`: each member sits at the first multiple of its alignment that is not below the
end of the member before it. -/
def memberOffsets : List (Nat × Nat) → Nat → List Nat
  | [], _ => []
  | (size, align) :: ms, pos =>
    let offset := (pos + align - 1) / align * align
    offset :: memberOffsets ms (offset + size)

/-- The end of the last member of a struct laid out from `pos` on. -/
def membersEnd : List (Nat × Nat) → Nat → Nat
  | [], pos => pos
  | (size, align) :: ms, pos => membersEnd ms ((pos + align - 1) / align * align + size)

/-- The size of a struct: the end of its last member, rounded up to a multiple of the
largest alignment among its members. -/
def structSize (ms : List (Nat × Nat)) : Nat :=
  let align := (ms.map Prod.snd).foldl max 1
  (membersEnd ms 0 + align - 1) / align * align

/-- Bytes `lo` to `hi`, both included, of a buffer. -/
def bytesAt (b : List Nat) (lo hi : Nat) : List Nat := (b.drop lo).take (hi + 1 - lo)

/-- The unsigned integer a byte sequence stores in little-endian order. -/
def littleEndian : List Nat → Nat
  | [] => 0
  | x :: xs => x + 256 * littleEndian xs

/-- The header table of the specification: each field with the byte range it occupies in
the 44-byte buffer, integers little-endian. -/
def specDecode (b : List Nat) : WAVHeader where
  riffId := bytesAt b 0 3
  fileSize := littleEndian (bytesAt b 4 7)
  waveId := bytesAt b 8 11
  fmtId := bytesAt b 12 15
  fmtSize := littleEndian (bytesAt b 16 19)
  dataFormat := littleEndian (bytesAt b 20 21)
  numberOfChannels := littleEndian (bytesAt b 22 23)
  samplesPerSecond := littleEndian (bytesAt b 24 27)
  bytesPerSecond := littleEndian (bytesAt b 28 31)
  blockAlignment := littleEndian (bytesAt b 32 33)
  bitsPerSample := littleEndian (bytesAt b 34 35)
  dataId := bytesAt b 36 39
  dataSize := littleEndian (bytesAt b 40 43)

/-- The minimal canonical header of the specification, with any `fileSize`. -/
def canonicalHeader (fileSize : Nat) : WAVHeader where
  riffId := cstr "RIFF"
  fileSize := fileSize
  waveId := cstr "WAVE"
  fmtId := cstr "fmt "
  fmtSize := 16
  dataFormat := 1
  numberOfChannels := 1
  samplesPerSecond := 44100
  bytesPerSecond := 44100
  blockAlignment := 1
  bitsPerSample := 8
  dataId := cstr "data"
  dataSize := 4

/-! ## The duration of the report: `float` arithmetic -/

/-- The local `lengthInSeconds` of `printInfo` (line 90),
`(float)lengthInSamples / header->samplesPerSecond`.  `fdiv a b` is the `float`
quotient the target computes for the unsigned integers `a` and `b`, both converted to
`float`. -/
def printInfo.lengthInSeconds (fdiv : Nat → Nat → Rat) (header : WAVHeader) : Rat :=
  fdiv (header.dataSize / header.blockAlignment) header.samplesPerSecond

/-- The integer nearest to `n / d`, the even one of the two when `n / d` lies halfway. -/
def roundHalfEven (n d : Nat) : Nat :=
  let q := n / d
  let r := n % d
  if 2 * r < d then q
  else if d < 2 * r then q + 1
  else if q % 2 = 0 then q
  else q + 1

/-- The fraction `n / d` multiplied by `2 ^ s`, as a numerator and a denominator. -/
def scaleByPow2 (n d : Nat) (s : Int) : Nat × Nat :=
  if 0 ≤ s then (n * 2 ^ s.toNat, d) else (n, d * 2 ^ (-s).toNat)

/-- The number of halvings that bring `n` below 2, at most `fuel` of them. -/
def halvings : Nat → Nat → Nat
  | 0, _ => 0
  | fuel + 1, n => if n < 2 then 0 else halvings fuel (n / 2) + 1

/-- The position of the highest set bit of `n`: `n` halvings are more than enough. -/
def floorLog2 (n : Nat) : Nat := halvings n n

/-- The exponent `e` with `2 ^ e ≤ n / d < 2 ^ (e + 1)`, for positive `n` and `d`. -/
def binaryExponent (n d : Nat) : Int :=
  let l : Int := (floorLog2 n : Int) - (floorLog2 d : Int)
  let p := scaleByPow2 n d (-l)
  if p.2 ≤ p.1 then l else l - 1

/-- IEEE 754 binary32 rounding of the fraction `n / d` in the normal range, as a
numerator and a denominator: the nearest number with a 24-bit significand, ties to
even.  Zero for `n = 0`. -/
def binary32 (n d : Nat) : Nat × Nat :=
  if n = 0 ∨ d = 0 then (0, 1)
  else
    let e := binaryExponent n d
    let p := scaleByPow2 n d (23 - e)
    scaleByPow2 (roundHalfEven p.1 p.2) 1 (e - 23)

/-- The conversion `(float)a` of an unsigned integer under IEEE 754 binary32; the
result is again an integer. -/
def floatOfNat (a : Nat) : Nat := (binary32 a 1).1 / (binary32 a 1).2

/-- The `float` quotient `(float)a / (float)b` under IEEE 754 binary32 arithmetic, for
`b ≠ 0`: the two conversions and the division each round to nearest. -/
def floatDiv (a b : Nat) : Rat :=
  ((binary32 (floatOfNat a) (floatOfNat b)).1 : Rat) / (binary32 (floatOfNat a) (floatOfNat b)).2

/-- A mono 8-bit 8000 Hz header with 8000 bytes of sample data. -/
def mono8k : WAVHeader :=
  { mono8 with samplesPerSecond := 8000, bytesPerSecond := 8000, dataSize := 8000 }

/-! ## Validation: lemmas -/

theorem strncmp_tag (t : List Nat) (a b c d : Nat) (ht : t.length = 4)
    (ha : a ≠ 0) (hb : b ≠ 0) (hc : c ≠ 0) (hd : d ≠ 0) :
    strncmp t [a, b, c, d] 4 = 0 ↔ t = [a, b, c, d] := by
  match t, ht with
  | [x0, x1, x2, x3], _ =>
    simp only [strncmp, List.headD_cons, List.tail_cons, ne_eq, ite_not, List.cons.injEq,
      and_true]
    constructor
    · intro h
      by_cases h0 : x0 = a
      · by_cases h1 : x1 = b
        · by_cases h2 : x2 = c
          · by_cases h3 : x3 = d
            · exact ⟨h0, h1, h2, h3⟩
            · simp [h0, h1, h2, h3, ha, hb, hc] at h; omega
          · simp [h0, h1, h2, ha, hb] at h; omega
        · simp [h0, h1, ha] at h; omega
      · simp [h0] at h; omega
    · rintro ⟨rfl, rfl, rfl, rfl⟩
      simp [ha, hb, hc]

theorem guard_ok_iff (c : Prop) [Decidable c] (x : Except Failure Unit) :
    (if c then invalidFail else x) = .ok () ↔ ¬c ∧ x = .ok () := by
  by_cases hc : c <;> simp [hc, invalidFail]

theorem isWAV_ok_iff_checks (h : WAVHeader) :
    isWAV h = .ok () ↔
      strncmp h.riffId (cstr "RIFF") 4 = 0 ∧ strncmp h.waveId (cstr "WAVE") 4 = 0 ∧
      strncmp h.fmtId (cstr "fmt ") 4 = 0 ∧ strncmp h.dataId (cstr "data") 4 = 0 ∧
      h.fmtSize = 16 ∧ h.dataFormat = 1 ∧
      (h.numberOfChannels = 1 ∨ h.numberOfChannels = 2) ∧
      (1 ≤ h.samplesPerSecond ∧ h.samplesPerSecond ≤ 192000) ∧
      (h.bitsPerSample = 8 ∨ h.bitsPerSample = 16) ∧
      h.bytesPerSecond = isWAV.number h ∧
      h.blockAlignment = h.bitsPerSample / 8 * h.numberOfChannels := by
  unfold isWAV
  simp only [guard_ok_iff, ne_eq, not_not, and_true]
  have e1 : (¬(¬h.numberOfChannels = 1 ∧ ¬h.numberOfChannels = 2)) ↔
      (h.numberOfChannels = 1 ∨ h.numberOfChannels = 2) := by omega
  have e2 : (¬(h.samplesPerSecond < 1 ∨ h.samplesPerSecond > 192000)) ↔
      (1 ≤ h.samplesPerSecond ∧ h.samplesPerSecond ≤ 192000) := by omega
  have e3 : (¬(¬h.bitsPerSample = 8 ∧ ¬h.bitsPerSample = 16)) ↔
      (h.bitsPerSample = 8 ∨ h.bitsPerSample = 16) := by omega
  rw [e1, e2, e3]

theorem number_no_wrap (h : WAVHeader)
    (hc : h.numberOfChannels = 1 ∨ h.numberOfChannels = 2)
    (hr : 1 ≤ h.samplesPerSecond ∧ h.samplesPerSecond ≤ 192000)
    (hb : h.bitsPerSample = 8 ∨ h.bitsPerSample = 16) :
    isWAV.number h = h.samplesPerSecond * (h.bitsPerSample / 8) * h.numberOfChannels := by
  unfold isWAV.number
  rcases hc with hc | hc <;> rcases hb with hb | hb <;> rw [hc, hb] <;> omega

theorem isWAV_ok_iff (h : WAVHeader) (hwf : h.WF) : isWAV h = .ok () ↔ SpecValid h := by
  obtain ⟨⟨h1, -⟩, -, ⟨h2, -⟩, ⟨h3, -⟩, -, -, -, -, -, -, -, ⟨h4, -⟩, -⟩ := hwf
  have e1 : cstr "RIFF" = [82, 73, 70, 70] := by decide
  have e2 : cstr "WAVE" = [87, 65, 86, 69] := by decide
  have e3 : cstr "fmt " = [102, 109, 116, 32] := by decide
  have e4 : cstr "data" = [100, 97, 116, 97] := by decide
  rw [isWAV_ok_iff_checks, SpecValid, e1, e2, e3, e4,
    strncmp_tag _ _ _ _ _ h1 (by decide) (by decide) (by decide) (by decide),
    strncmp_tag _ _ _ _ _ h2 (by decide) (by decide) (by decide) (by decide),
    strncmp_tag _ _ _ _ _ h3 (by decide) (by decide) (by decide) (by decide),
    strncmp_tag _ _ _ _ _ h4 (by decide) (by decide) (by decide) (by decide)]
  constructor
  · rintro ⟨a1, a2, a3, a4, a5, a6, hc, hr, hb, hn, hk⟩
    rw [number_no_wrap h hc hr hb] at hn
    refine ⟨a1, a2, a3, a4, a5, a6, hc, hr, hb, ?_, ?_⟩
    · rw [hn, hk, Nat.mul_assoc]
    · rw [hk, Nat.mul_comm]
  · rintro ⟨a1, a2, a3, a4, a5, a6, hc, hr, hb, hn, hk⟩
    refine ⟨a1, a2, a3, a4, a5, a6, hc, hr, hb, ?_, ?_⟩
    · rw [number_no_wrap h hc hr hb, hn, hk, Nat.mul_assoc, Nat.mul_comm h.numberOfChannels]
    · rw [hk, Nat.mul_comm]

theorem isWAV_dataSize (h : WAVHeader) (d : Nat) :
    isWAV { h with dataSize := d } = isWAV h := rfl

/-! ## Reversal: lemmas -/

theorem elements_length (w k : Nat) (l : List Nat) : (elements w k l).length = k := by
  induction k generalizing l with
  | zero => rfl
  | succ k ih => simp [elements, ih]

theorem elements_getD (w : Nat) (k : Nat) (l : List Nat) (j : Nat) (hj : j < k) :
    (elements w k l).getD j [] = frame w l j := by
  induction k generalizing l j with
  | zero => omega
  | succ k ih =>
    cases j with
    | zero => simp [elements, frame]
    | succ j =>
      simp only [elements, List.getD_cons_succ]
      rw [ih _ _ (by omega)]
      simp only [frame, List.drop_drop]
      congr 2
      ring

theorem elements_elem_length (w k : Nat) (l : List Nat) (h : w * k ≤ l.length) :
    ∀ e ∈ elements w k l, e.length = w := by
  induction k generalizing l with
  | zero => simp [elements]
  | succ k ih =>
    intro e he
    simp only [elements, List.mem_cons] at he
    have h1 : w * k + w ≤ l.length := by rw [Nat.mul_succ] at h; exact h
    rcases he with rfl | he
    · simp; omega
    · exact ih (l.drop w) (by simp; omega) e he

theorem elements_flatten (w k : Nat) (l : List Nat) (h : w * k ≤ l.length) :
    (elements w k l).flatten = l.take (w * k) := by
  induction k generalizing l with
  | zero => simp [elements]
  | succ k ih =>
    have h1 : w * k + w ≤ l.length := by rw [Nat.mul_succ] at h; exact h
    simp only [elements, List.flatten_cons]
    rw [ih (l.drop w) (by simp; omega), Nat.mul_succ, Nat.add_comm (w * k) w, List.take_add]

theorem elements_of_flatten (w : Nat) (L : List (List Nat)) (X : List Nat)
    (hL : ∀ e ∈ L, e.length = w) : elements w L.length (L.flatten ++ X) = L := by
  induction L with
  | nil => rfl
  | cons e L ih =>
    have he : e.length = w := hL e (by simp)
    simp only [List.length_cons, elements, List.flatten_cons, List.append_assoc]
    rw [List.take_left' he, List.drop_left' he, ih (fun x hx => hL x (by simp [hx]))]

theorem frame_flatten (w : Nat) (L : List (List Nat)) (X : List Nat)
    (hL : ∀ e ∈ L, e.length = w) (j : Nat) (hj : j < L.length) :
    frame w (L.flatten ++ X) j = L.getD j [] := by
  rw [← elements_getD w L.length _ j hj, elements_of_flatten w L X hL]

theorem take_set_self (l : List (List Nat)) (j : Nat) (a : List Nat) :
    (l.set j a).take j = l.take j := by
  rw [List.set_take]
  exact List.set_eq_of_length_le (by simp)

theorem reverseLoop_eq (data : List (List Nat)) (i j : Nat) (rev : List (List Nat))
    (hi : i ≤ data.length) (hj : j + i = rev.length) :
    reverseLoop data i j rev = rev.take j ++ (data.take i).reverse := by
  induction i generalizing j rev with
  | zero => simp [reverseLoop, ← hj]
  | succ i ih =>
    have hlt : i < data.length := by omega
    have hjl : j < rev.length := by omega
    have e1 : List.take (i + 1) data = List.take i data ++ [data.getD i []] := by
      rw [List.take_succ, List.getD_eq_getElem _ _ hlt, List.getElem?_eq_getElem hlt]
      rfl
    have e2 : List.take (j + 1) (rev.set j (data.getD i [])) =
        List.take j rev ++ [data.getD i []] := by
      rw [List.take_succ, take_set_self,
        List.getElem?_set_self hjl]
      rfl
    rw [reverseLoop, ih (j + 1) _ (by omega) (by simp; omega), e1, e2]
    simp

theorem reverseLoop_all (data rev : List (List Nat)) (h : rev.length = data.length) :
    reverseLoop data data.length 0 rev = data.reverse := by
  rw [reverseLoop_eq data data.length 0 rev (le_refl _) (by omega)]
  simp

theorem loopCount_small (n : Nat) (h : n ≤ 2 ^ 31) :
    (toInt32 ((n + 2 ^ 32 - 1) % 2 ^ 32) + 1).toNat = n := by
  unfold toInt32
  split_ifs <;> omega

theorem loopCount_large (n : Nat) (h : 2 ^ 31 < n) (h2 : n < 2 ^ 32) :
    (toInt32 ((n + 2 ^ 32 - 1) % 2 ^ 32) + 1).toNat = 0 := by
  unfold toInt32
  split_ifs <;> omega

theorem flatten_length_uniform (w : Nat) (L : List (List Nat)) (hL : ∀ e ∈ L, e.length = w) :
    L.flatten.length = w * L.length := by
  induction L with
  | nil => simp
  | cons e L ih =>
    simp only [List.flatten_cons, List.length_append, List.length_cons]
    rw [ih (fun x hx => hL x (by simp [hx])), hL e (by simp), Nat.mul_succ]
    omega

theorem indeterminateBytes_length (u : Nat → Nat) (s n : Nat) :
    (indeterminateBytes u s n).length = n := by
  simp [indeterminateBytes]

theorem freadArray_full (u : Nat → Nat) (w n : Nat) (content : List Nat) (pos : Nat)
    (hw : 0 < w) (hlen : pos + w * n ≤ content.length) :
    freadArray u w n content pos = elements w n (content.drop pos) := by
  unfold freadArray
  have hk : n ≤ (content.drop pos).length / w := by
    rw [Nat.le_div_iff_mul_le hw, List.length_drop, Nat.mul_comm]
    omega
  simp only [Nat.min_eq_left hk]
  have hnil : List.drop n (elements w n (indeterminateBytes u 0 (w * n))) = [] :=
    List.drop_of_length_le (by rw [elements_length])
  rw [hnil, List.append_nil]

theorem fwrite_content (file : File) (pos : Nat) (bytes : List Nat)
    (h : pos ≤ file.content.length) :
    (fwrite file pos bytes).content =
      file.content.take pos ++ (bytes ++ file.content.drop (pos + bytes.length)) := by
  simp only [fwrite, Nat.sub_eq_zero_of_le h, List.replicate_zero, List.append_nil,
    List.append_assoc]

theorem reversed_elem_length (w n : Nat) (content : List Nat)
    (hlen : sizeofWAVHeader + w * n ≤ content.length) :
    ∀ e ∈ (elements w n (payloadOf content)).reverse, e.length = w := by
  intro e he
  rw [List.mem_reverse] at he
  exact elements_elem_length w n _ (by simp [payloadOf]; omega) e he

theorem reversed_flatten_length (w n : Nat) (content : List Nat)
    (hlen : sizeofWAVHeader + w * n ≤ content.length) :
    (elements w n (payloadOf content)).reverse.flatten.length = w * n := by
  have hflat := flatten_length_uniform w _ (reversed_elem_length w n content hlen)
  rwa [List.length_reverse, elements_length] at hflat

/-- With at most `2^31` elements and a file that holds them all, the call sends the
elements of the payload in reverse order, followed by the memory past the end of
`reversedArray` up to the `size * sizeof(reversedArray)` bytes asked for. -/
theorem reverseBody_eq (w : Nat) (mem : Indeterminate) (file : File) (n : Nat)
    (hw : 0 < w) (hn : n ≤ 2 ^ 31) (hlen : sizeofWAVHeader + w * n ≤ file.content.length) :
    reverseBody w mem file n = fwrite file sizeofWAVHeader
      ((elements w n (payloadOf file.content)).reverse.flatten ++
        indeterminateBytes mem.reversedArray (w * n) (w * (w * n) - w * n)) := by
  have hloop := reverseLoop_all (elements w n (payloadOf file.content))
    (elements w n (indeterminateBytes mem.reversedArray 0 (w * n)))
    (by rw [elements_length, elements_length])
  rw [elements_length] at hloop
  have hflat := reversed_flatten_length w n file.content hlen
  have hsrc : fwriteSource mem.reversedArray w n
      (elements w n (payloadOf file.content)).reverse (w * n) =
      (elements w n (payloadOf file.content)).reverse.flatten ++
        indeterminateBytes mem.reversedArray (w * n) (w * (w * n) - w * n) := by
    unfold fwriteSource
    apply List.take_of_length_le
    rw [List.length_append, hflat, indeterminateBytes_length]
    have : w * n ≤ w * (w * n) := Nat.le_mul_of_pos_left _ hw
    omega
  unfold reverseBody
  simp only [loopCount_small n hn, freadArray_full _ w n _ _ hw hlen]
  rw [show List.drop sizeofWAVHeader file.content = payloadOf file.content from rfl, hloop,
    hsrc]

theorem reverseBody_content (w : Nat) (mem : Indeterminate) (file : File) (n : Nat)
    (hw : 0 < w) (hn : n ≤ 2 ^ 31) (hlen : sizeofWAVHeader + w * n ≤ file.content.length) :
    ∃ X, (reverseBody w mem file n).content =
      file.content.take sizeofWAVHeader ++
        ((elements w n (payloadOf file.content)).reverse.flatten ++ X) := by
  rw [reverseBody_eq w mem file n hw hn hlen, fwrite_content _ _ _ (by omega),
    List.append_assoc]
  exact ⟨_, rfl⟩

theorem payloadOf_append (hd : List Nat) (rest : List Nat) (h : hd.length = sizeofWAVHeader) :
    payloadOf (hd ++ rest) = rest := by
  unfold payloadOf
  exact List.drop_left' h

/-- Frames come out in reverse order: with at most `2^31` elements and a file that
holds them all, frame `j` of the payload after the call is frame `n - 1 - j` of the
payload before it. -/
theorem reverseBody_frames (w : Nat) (mem : Indeterminate) (file : File) (n : Nat)
    (hw : 0 < w) (hn : n ≤ 2 ^ 31) (hlen : sizeofWAVHeader + w * n ≤ file.content.length)
    (j : Nat) (hj : j < n) :
    frame w (payloadOf (reverseBody w mem file n).content) j =
      frame w (payloadOf file.content) (n - 1 - j) := by
  obtain ⟨X, hX⟩ := reverseBody_content w mem file n hw hn hlen
  have hdata := reversed_elem_length w n file.content hlen
  rw [hX, payloadOf_append _ _ (by simp; omega),
    frame_flatten w _ X hdata j (by simp [elements_length]; exact hj)]
  have hj' : j < (elements w n (payloadOf file.content)).reverse.length := by
    simp [elements_length]; exact hj
  rw [List.getD_eq_getElem _ _ hj', List.getElem_reverse,
    ← List.getD_eq_getElem _ [] (by simp [elements_length]; omega), elements_length,
    elements_getD w n _ _ (by omega)]

/-- Reversing twice gives back the payload: with at most `2^31` elements and a file that
holds them all, the first `w * n` bytes after the header are the original ones. -/
theorem reverseBody_twice (w : Nat) (mem₁ mem₂ : Indeterminate) (file : File) (n : Nat)
    (hw : 0 < w) (hn : n ≤ 2 ^ 31) (hlen : sizeofWAVHeader + w * n ≤ file.content.length) :
    (payloadOf (reverseBody w mem₂ (reverseBody w mem₁ file n) n).content).take (w * n) =
      (payloadOf file.content).take (w * n) := by
  obtain ⟨X, hX⟩ := reverseBody_content w mem₁ file n hw hn hlen
  have hP : w * n ≤ (payloadOf file.content).length := by simp [payloadOf]; omega
  have hdata := reversed_elem_length w n file.content hlen
  have hflat := reversed_flatten_length w n file.content hlen
  have hlen₁ : sizeofWAVHeader + w * n ≤ (reverseBody w mem₁ file n).content.length := by
    rw [hX]; simp only [List.length_append, List.length_take, hflat]; omega
  obtain ⟨Y, hY⟩ := reverseBody_content w mem₂ _ n hw hn hlen₁
  have h44 : (List.take sizeofWAVHeader file.content).length = sizeofWAVHeader := by
    simp; omega
  have hP₁ : payloadOf (reverseBody w mem₁ file n).content =
      (elements w n (payloadOf file.content)).reverse.flatten ++ X := by
    rw [hX, payloadOf_append _ _ h44]
  have hel : elements w n ((elements w n (payloadOf file.content)).reverse.flatten ++ X) =
      (elements w n (payloadOf file.content)).reverse := by
    have := elements_of_flatten w _ X hdata
    rwa [List.length_reverse, elements_length] at this
  rw [hY, payloadOf_append _ _ (by rw [hX, List.take_left' h44]; exact h44), hP₁, hel,
    List.reverse_reverse, elements_flatten w n _ hP, List.take_append_of_le_length (by simp; omega)]
  simp

/-- The number of bytes sent to the file is `size * sizeof(reversedArray)`, which is
`size * size * lengthInSamples`. -/
theorem reverseBody_written (w : Nat) (mem : Indeterminate) (file : File) (n : Nat)
    (hw : 0 < w) (hn : n ≤ 2 ^ 31) (hlen : sizeofWAVHeader + w * n ≤ file.content.length) :
    ∃ bytes, (reverseBody w mem file n).written = file.written ++ [(sizeofWAVHeader, bytes)] ∧
      bytes.length = w * (w * n) := by
  rw [reverseBody_eq w mem file n hw hn hlen]
  refine ⟨_, rfl, ?_⟩
  rw [List.length_append, reversed_flatten_length w n _ hlen, indeterminateBytes_length]
  have : w * n ≤ w * (w * n) := Nat.le_mul_of_pos_left _ hw
  omega

theorem reverseBody_large (w : Nat) (mem : Indeterminate) (file : File) (n : Nat)
    (h1 : 2 ^ 31 < n) (h2 : n < 2 ^ 32) :
    reverseBody w mem file n = fwrite file sizeofWAVHeader
      (fwriteSource mem.reversedArray w n
        (elements w n (indeterminateBytes mem.reversedArray 0 (w * n))) (w * n)) := by
  unfold reverseBody
  dsimp only
  rw [loopCount_large n h1 h2]
  rfl

/-- With more than `2^31` elements the loop of `reverse1` does not run, and the file
receives the indeterminate contents of `reversedArray`. -/
theorem reverse1_large (mem : Indeterminate) (file : File) (n : Nat)
    (h1 : 2 ^ 31 < n) (h2 : n < 2 ^ 32) :
    reverse1 mem file n =
      fwrite file sizeofWAVHeader (indeterminateBytes mem.reversedArray 0 n) := by
  unfold reverse1
  rw [reverseBody_large 1 mem file n h1 h2]
  congr 1
  unfold fwriteSource
  rw [elements_flatten 1 n _ (by rw [indeterminateBytes_length])]
  simp only [Nat.one_mul, Nat.sub_self]
  have e0 : indeterminateBytes mem.reversedArray n 0 = [] := rfl
  have e1 : List.take n (indeterminateBytes mem.reversedArray 0 n) =
      indeterminateBytes mem.reversedArray 0 n :=
    List.take_of_length_le (by rw [indeterminateBytes_length])
  rw [e0, List.append_nil, e1, e1]

theorem frame_one (l X : List Nat) (j : Nat) (hj : j < l.length) :
    frame 1 (l ++ X) j = [l[j]] := by
  unfold frame
  rw [Nat.mul_one, List.drop_append_of_le_length (by omega)]
  rw [List.drop_eq_getElem_cons hj]
  rfl

theorem main_reverse (atoi : List Nat → Int) (mem : Indeterminate) (content : List Nat)
    (a0 a1 a2 : List Nat) (hflag : strcmp a2 (cstr " -reverse") ≠ 0)
    (hvalid : isWAV (readFile mem content) = .ok ()) :
    main atoi mem (some content) [a0, a1, a2] =
      match reverseBranch mem ⟨content, []⟩ (readFile mem content) with
      | none => { status := .divisionByZero, stdout := [], file := some ⟨content, []⟩ }
      | some file₁ => { status := .exit 0, stdout := [], file := some file₁ } := by
  unfold main
  simp [fileCheck, hvalid, hflag]

theorem isWAV_blockAlignment (h : WAVHeader) (hv : isWAV h = .ok ()) :
    (h.numberOfChannels = 1 ∧ h.bitsPerSample = 8 ∧ h.blockAlignment = 1) ∨
    (h.numberOfChannels = 2 ∧ h.bitsPerSample = 16 ∧ h.blockAlignment = 4) ∨
    (h.numberOfChannels = 1 ∧ h.bitsPerSample = 16 ∧ h.blockAlignment = 2) ∨
    (h.numberOfChannels = 2 ∧ h.bitsPerSample = 8 ∧ h.blockAlignment = 2) := by
  rw [isWAV_ok_iff_checks] at hv
  obtain ⟨-, -, -, -, -, -, hc, -, hb, -, hk⟩ := hv
  rcases hc with hc | hc <;> rcases hb with hb | hb <;> rw [hc, hb] at hk <;> simp [hc, hb, hk]

theorem hugeCount_eq : hugeCount = 2147483649 := by decide

theorem reverseBranch_mono8Huge (mem : Indeterminate) (file : File) :
    reverseBranch mem file mono8Huge = some (reverse1 mem file hugeCount) := by
  have hb : mono8Huge.blockAlignment = 1 := rfl
  have hc : mono8Huge.numberOfChannels = 1 := rfl
  have hs : mono8Huge.bitsPerSample = 8 := rfl
  have hd : mono8Huge.dataSize = hugeCount := rfl
  unfold reverseBranch
  rw [hb, hc, hs, hd, Nat.div_one]
  rfl

/-- A run in reverse mode on a mono 8-bit file whose header announces `2^31 + 1`
samples sends the indeterminate contents of `reversedArray` to the file. -/
theorem main_reverse_huge (mem : Indeterminate) (content : List Nat)
    (hhead : content.take sizeofWAVHeader = encode mono8Huge)
    (hlen : sizeofWAVHeader ≤ content.length) :
    main atoiC mem (some content) reverseArgs =
      { status := .exit 0, stdout := [],
        file := some (fwrite ⟨content, []⟩ sizeofWAVHeader
          (indeterminateBytes mem.reversedArray 0 hugeCount)) } := by
  have hread : readFile mem content = mono8Huge := by
    unfold readFile
    rw [if_pos hlen, hhead]
    decide
  have hmain := main_reverse atoiC mem content (cstr "wavedit") (cstr "a.wav") (cstr "-reverse")
    (by decide) (by rw [hread]; decide)
  rw [hread, reverseBranch_mono8Huge,
    reverse1_large mem _ hugeCount (by rw [hugeCount_eq]; decide)
      (by rw [hugeCount_eq]; decide)] at hmain
  exact hmain

theorem hugeFile_head (payload : List Nat) :
    (encode mono8Huge ++ payload).take sizeofWAVHeader = encode mono8Huge :=
  List.take_left' (by decide)

theorem frame_zero_after_huge (mem : Indeterminate) (content : List Nat)
    (hlen : sizeofWAVHeader ≤ content.length) :
    frame 1 (payloadOf (fwrite ⟨content, []⟩ sizeofWAVHeader
      (indeterminateBytes mem.reversedArray 0 hugeCount)).content) 0 = [mem.reversedArray 0] := by
  rw [fwrite_content _ _ _ hlen, payloadOf_append _ _ (by simp; exact hlen),
    frame_one _ _ 0 (by rw [indeterminateBytes_length, hugeCount_eq]; decide)]
  simp [indeterminateBytes]

theorem hugeFile_length (payload : List Nat) :
    sizeofWAVHeader ≤ (encode mono8Huge ++ payload).length := by
  have h : (encode mono8Huge).length = sizeofWAVHeader := by decide
  rw [List.length_append, h]
  exact Nat.le_add_right _ _

theorem fwrite_head (content bytes : List Nat) (hlen : sizeofWAVHeader ≤ content.length) :
    (fwrite ⟨content, []⟩ sizeofWAVHeader bytes).content.take sizeofWAVHeader =
      content.take sizeofWAVHeader := by
  rw [fwrite_content _ _ _ hlen]
  exact List.take_left' (by rw [List.length_take]; exact Nat.min_eq_left hlen)

theorem fwrite_length (content bytes : List Nat) (hlen : sizeofWAVHeader ≤ content.length) :
    sizeofWAVHeader ≤ (fwrite ⟨content, []⟩ sizeofWAVHeader bytes).content.length := by
  rw [fwrite_content _ _ _ hlen, List.length_append, List.length_take, Nat.min_eq_left hlen]
  exact Nat.le_add_right _ _

theorem hugeFile_first_run :
    main atoiC (fillMem 0) (some (encode mono8Huge ++ List.replicate hugeCount 7)) reverseArgs =
      { status := .exit 0, stdout := [],
        file := some (fwrite ⟨encode mono8Huge ++ List.replicate hugeCount 7, []⟩ sizeofWAVHeader
          (indeterminateBytes (fillMem 0).reversedArray 0 hugeCount)) } :=
  main_reverse_huge _ _ (hugeFile_head _) (hugeFile_length _)

theorem hugeFile_second_run :
    main atoiC (fillMem 0) (some (fwrite ⟨encode mono8Huge ++ List.replicate hugeCount 7, []⟩ sizeofWAVHeader
          (indeterminateBytes (fillMem 0).reversedArray 0 hugeCount)).content) reverseArgs =
      { status := .exit 0, stdout := [],
        file := some (fwrite ⟨(fwrite ⟨encode mono8Huge ++ List.replicate hugeCount 7, []⟩ sizeofWAVHeader
          (indeterminateBytes (fillMem 0).reversedArray 0 hugeCount)).content, []⟩ sizeofWAVHeader
          (indeterminateBytes (fillMem 0).reversedArray 0 hugeCount)) } :=
  main_reverse_huge _ _ ((fwrite_head _ _ (hugeFile_length _)).trans (hugeFile_head _))
    (fwrite_length _ _ (hugeFile_length _))

/-- The two scenarios of the specification: four mono 8-bit samples, and two stereo
16-bit frames, whose reversed frames are followed by the 24 bytes the call reads
past the end of `reversedArray`. -/
theorem reverse_scenarios :
    payloadOf (reverse1 (fillMem 0) ⟨mono8File, []⟩ 4).content = [4, 3, 2, 1] ∧
    (payloadOf (reverse2 (fillMem 0) ⟨stereo16File, []⟩ 2).content).take 8 =
      [5, 6, 7, 8, 1, 2, 3, 4] := by
  decide

/-! ## Codec and set-rate: lemmas -/

theorem bytes32_u32 (b0 b1 b2 b3 : Nat) (h0 : b0 < 256) (h1 : b1 < 256) (h2 : b2 < 256)
    (h3 : b3 < 256) :
    bytes32 (b0 + 256 * b1 + 65536 * b2 + 16777216 * b3) = [b0, b1, b2, b3] := by
  simp only [bytes32, List.cons.injEq, and_true]
  refine ⟨?_, ?_, ?_, ?_⟩ <;> omega

theorem bytes16_u16 (b0 b1 : Nat) (h0 : b0 < 256) (h1 : b1 < 256) :
    bytes16 (b0 + 256 * b1) = [b0, b1] := by
  simp only [bytes16, List.cons.injEq, and_true]
  refine ⟨?_, ?_⟩ <;> omega

theorem u32_bytes32 (x : Nat) (hx : x < 2 ^ 32) :
    x % 256 + 256 * (x / 256 % 256) + 65536 * (x / 65536 % 256)
      + 16777216 * (x / 16777216 % 256) = x := by
  omega

theorem u16_bytes16 (x : Nat) (hx : x < 2 ^ 16) : x % 256 + 256 * (x / 256 % 256) = x := by
  omega

theorem encode_decode (b : List Nat) (hlen : b.length = sizeofWAVHeader)
    (hb : ∀ x ∈ b, x < 256) : encode (decode b) = b := by
  match b, hlen with
  | b0 :: b1 :: b2 :: b3 :: b4 :: b5 :: b6 :: b7 :: b8 :: b9 :: b10 :: b11 :: b12 :: b13 ::
      b14 :: b15 :: b16 :: b17 :: b18 :: b19 :: b20 :: b21 :: b22 :: b23 :: b24 :: b25 :: b26 ::
      b27 :: b28 :: b29 :: b30 :: b31 :: b32 :: b33 :: b34 :: b35 :: b36 :: b37 :: b38 :: b39 ::
      b40 :: b41 :: b42 :: b43 :: [], _ =>
    simp only [List.mem_cons, List.mem_singleton, forall_eq_or_imp, forall_eq] at hb
    obtain ⟨h0, h1, h2, h3, h4, h5, h6, h7, h8, h9, h10, h11, h12, h13, h14, h15, h16, h17, h18,
      h19, h20, h21, h22, h23, h24, h25, h26, h27, h28, h29, h30, h31, h32, h33, h34, h35, h36,
      h37, h38, h39, h40, h41, h42, h43⟩ := hb
    have e (k : Nat) (x : Nat) (l : List Nat) : (x :: l).getD (k + 1) 0 = l.getD k 0 := rfl
    have e0 (x : Nat) (l : List Nat) : (x :: l).getD 0 0 = x := rfl
    simp only [encode, decode, u32At, u16At, List.drop, List.take, e, e0,
      bytes32_u32, bytes16_u16, h4, h5, h6, h7, h16, h17, h18, h19, h20, h21, h22, h23, h24, h25,
      h26, h27, h28, h29, h30, h31, h32, h33, h34, h35, h40, h41, h42, h43]
    rfl

theorem encode_length (h : WAVHeader) (hwf : h.WF) : (encode h).length = sizeofWAVHeader := by
  obtain ⟨⟨l1, -⟩, -, ⟨l2, -⟩, ⟨l3, -⟩, -, -, -, -, -, -, -, ⟨l4, -⟩, -⟩ := hwf
  simp [encode, bytes32, bytes16, l1, l2, l3, l4, sizeofWAVHeader]

theorem decode_encode (h : WAVHeader) (hwf : h.WF) : decode (encode h) = h := by
  obtain ⟨riffId, fileSize, waveId, fmtId, fmtSize, dataFormat, numberOfChannels,
    samplesPerSecond, bytesPerSecond, blockAlignment, bitsPerSample, dataId, dataSize⟩ := h
  obtain ⟨⟨l1, -⟩, hfs, ⟨l2, -⟩, ⟨l3, -⟩, hfm, hdf, hnc, hsp, hbp, hba, hbs, ⟨l4, -⟩, hds⟩ := hwf
  simp only at l1 l2 l3 l4 hfs hfm hdf hnc hsp hbp hba hbs hds
  match riffId, l1, waveId, l2, fmtId, l3, dataId, l4 with
  | [r0, r1, r2, r3], _, [w0, w1, w2, w3], _, [f0, f1, f2, f3], _, [d0, d1, d2, d3], _ =>
    have e (k : Nat) (x : Nat) (l : List Nat) : (x :: l).getD (k + 1) 0 = l.getD k 0 := rfl
    have e0 (x : Nat) (l : List Nat) : (x :: l).getD 0 0 = x := rfl
    simp only [encode, decode, u32At, u16At, bytes32, bytes16, List.cons_append,
      List.nil_append, List.drop, List.take, e, e0, u32_bytes32 _ hfs, u32_bytes32 _ hfm,
      u32_bytes32 _ hsp, u32_bytes32 _ hbp, u32_bytes32 _ hds, u16_bytes16 _ hdf,
      u16_bytes16 _ hnc, u16_bytes16 _ hba, u16_bytes16 _ hbs]

theorem main_rate (atoi : List Nat → Int) (mem : Indeterminate) (content : List Nat)
    (a0 a1 a2 a3 : List Nat) (hflag : strcmp a2 (cstr " -rate") ≠ 0)
    (hvalid : isWAV (readFile mem content) = .ok ()) :
    main atoi mem (some content) [a0, a1, a2, a3] =
      match setRate atoi ⟨content, []⟩ (readFile mem content) a3 with
      | .error _ =>
        { status := .exit EXIT_FAILURE, stdout := [.rateRange], file := some ⟨content, []⟩ }
      | .ok file₁ => { status := .exit 0, stdout := [], file := some file₁ } := by
  unfold main
  simp [fileCheck, hvalid, hflag]

theorem setRate_in_range (atoi : List Nat → Int) (file : File) (h : WAVHeader) (arg : List Nat)
    (hvalid : isWAV h = .ok ()) (hrate : 1 ≤ atoi arg ∧ atoi arg ≤ 192000) :
    setRate atoi file h arg = .ok (writeBack file
      { h with samplesPerSecond := (atoi arg).toNat,
               bytesPerSecond := (atoi arg).toNat * h.blockAlignment }) := by
  have hr : toUInt32 (atoi arg) = (atoi arg).toNat := by unfold toUInt32; omega
  have hck : checkRate (atoi arg).toNat = .ok () := by
    unfold checkRate
    rw [if_neg (by omega)]
  unfold setRate
  simp only [hr, hck]
  congr 3
  rcases isWAV_blockAlignment h hvalid with ⟨hc, hb, hk⟩ | ⟨hc, hb, hk⟩ | ⟨hc, hb, hk⟩ |
    ⟨hc, hb, hk⟩ <;> rw [hc, hb, hk] <;> omega

theorem setRate_out_of_range (atoi : List Nat → Int) (file : File) (h : WAVHeader)
    (arg : List Nat) (hint : -2 ^ 31 ≤ atoi arg ∧ atoi arg < 2 ^ 31)
    (hrate : ¬(1 ≤ atoi arg ∧ atoi arg ≤ 192000)) :
    setRate atoi file h arg = .error .rateOutOfRange := by
  have hck : checkRate (toUInt32 (atoi arg)) = .error .rateOutOfRange := by
    unfold checkRate toUInt32
    rw [if_pos (by omega)]
  unfold setRate
  simp only [hck]

theorem main_invalid (atoi : List Nat → Int) (mem : Indeterminate) (content : List Nat)
    (argv : List (List Nat)) (hargs : 2 ≤ argv.length)
    (hinvalid : isWAV (readFile mem content) ≠ .ok ()) :
    main atoi mem (some content) argv =
      { status := .exit EXIT_FAILURE, stdout := [.invalidWAV], file := some ⟨content, []⟩ } := by
  unfold main
  have h1 : argv.length ≠ 1 := by omega
  cases hw : isWAV (readFile mem content) with
  | error e => simp [fileCheck, hw, h1]
  | ok u => exact absurd hw hinvalid

theorem writeBack_content (file : File) (h : WAVHeader) (hwf : h.WF) :
    (writeBack file h).content = encode h ++ file.content.drop sizeofWAVHeader := by
  simp [writeBack, fwrite, encode_length h hwf]

theorem setRate_header_WF (h : WAVHeader) (r : Int) (hwf : h.WF) (hvalid : isWAV h = .ok ())
    (hrate : 1 ≤ r ∧ r ≤ 192000) :
    ({ h with samplesPerSecond := r.toNat,
              bytesPerSecond := r.toNat * h.blockAlignment } : WAVHeader).WF := by
  obtain ⟨t1, hfs, t2, t3, hfm, hdf, hnc, hsp, hbp, hba, hbs, t4, hds⟩ := hwf
  refine ⟨t1, hfs, t2, t3, hfm, hdf, hnc, ?_, ?_, hba, hbs, t4, hds⟩
  · show r.toNat < 2 ^ 32
    omega
  · show r.toNat * h.blockAlignment < 2 ^ 32
    rcases isWAV_blockAlignment h hvalid with ⟨-, -, hk⟩ | ⟨-, -, hk⟩ | ⟨-, -, hk⟩ |
      ⟨-, -, hk⟩ <;> rw [hk] <;> omega

/-! ## Layout, report and dispatch: lemmas -/

theorem decode_eq_specDecode (b : List Nat) (hlen : b.length = sizeofWAVHeader) :
    decode b = specDecode b := by
  match b, hlen with
  | b0 :: b1 :: b2 :: b3 :: b4 :: b5 :: b6 :: b7 :: b8 :: b9 :: b10 :: b11 :: b12 :: b13 ::
      b14 :: b15 :: b16 :: b17 :: b18 :: b19 :: b20 :: b21 :: b22 :: b23 :: b24 :: b25 ::
      b26 :: b27 :: b28 :: b29 :: b30 :: b31 :: b32 :: b33 :: b34 :: b35 :: b36 :: b37 ::
      b38 :: b39 :: b40 :: b41 :: b42 :: b43 :: [], _ =>
    have e (k : Nat) (x : Nat) (l : List Nat) : (x :: l).getD (k + 1) 0 = l.getD k 0 := rfl
    have e0 (x : Nat) (l : List Nat) : (x :: l).getD 0 0 = x := rfl
    simp only [decode, specDecode, bytesAt, u32At, u16At, List.drop, List.take, e, e0,
      littleEndian, Nat.mul_zero, Nat.add_zero, WAVHeader.mk.injEq, true_and, and_true]
    repeat' apply And.intro
    all_goals omega

theorem checkRate_ok_iff (r : Nat) : checkRate r = .ok () ↔ 1 ≤ r ∧ r ≤ 192000 := by
  unfold checkRate
  by_cases h : r < 1 ∨ r > 192000
  · rw [if_pos h]
    constructor
    · intro hk; cases hk
    · intro hk; omega
  · rw [if_neg h]
    constructor
    · intro _; omega
    · intro _; rfl

theorem printInfo_valid (h : WAVHeader) (hvalid : isWAV h = .ok ()) :
    printInfo h = some (.info h.bitsPerSample h.samplesPerSecond
      (decide (h.numberOfChannels = 1)) (h.dataSize / h.blockAlignment)) := by
  have hk : h.blockAlignment ≠ 0 := by
    rcases isWAV_blockAlignment h hvalid with ⟨-, -, hk⟩ | ⟨-, -, hk⟩ | ⟨-, -, hk⟩ |
      ⟨-, -, hk⟩ <;> omega
  unfold printInfo
  rw [if_neg hk]

theorem reverseBranch_valid (mem : Indeterminate) (file : File) (h : WAVHeader)
    (hvalid : isWAV h = .ok ()) :
    reverseBranch mem file h =
      some (reverseBody h.blockAlignment mem file (h.dataSize / h.blockAlignment)) := by
  unfold reverseBranch reverse1 reverse2 reverse3
  rcases isWAV_blockAlignment h hvalid with ⟨hc, hb, hk⟩ | ⟨hc, hb, hk⟩ | ⟨hc, hb, hk⟩ |
    ⟨hc, hb, hk⟩ <;> simp [hc, hb, hk]

theorem main_report (atoi : List Nat → Int) (mem : Indeterminate) (content : List Nat)
    (a0 a1 : List Nat) (hvalid : isWAV (readFile mem content) = .ok ()) :
    main atoi mem (some content) [a0, a1] =
      { status := .exit 0,
        stdout := [.info (readFile mem content).bitsPerSample
          (readFile mem content).samplesPerSecond
          (decide ((readFile mem content).numberOfChannels = 1))
          ((readFile mem content).dataSize / (readFile mem content).blockAlignment)],
        file := some ⟨content, []⟩ } := by
  unfold main
  simp [fileCheck, hvalid, printInfo_valid _ hvalid]

theorem main_status_ne_divisionByZero (atoi : List Nat → Int) (mem : Indeterminate)
    (disk : Option (List Nat)) (argv : List (List Nat)) :
    (main atoi mem disk argv).status ≠ .divisionByZero := by
  unfold main
  by_cases h1 : argv.length = 1
  · simp [h1]
  · cases disk with
    | none => simp [h1, fileCheck, invalidFail]
    | some content =>
      cases hv : isWAV (readFile mem content) with
      | error e => simp [h1, fileCheck, hv]
      | ok u =>
        have hp := printInfo_valid _ hv
        have hr := reverseBranch_valid mem ⟨content, []⟩ _ hv
        simp only [h1, fileCheck, hv, hp, hr, if_false]
        split_ifs
        · simp
        · cases setRate atoi ⟨content, []⟩ (readFile mem content) (argv.getD 3 []) <;> simp
        · simp
        · simp

theorem halvings_spec (fuel n : Nat) (hn : 1 ≤ n) (hf : n ≤ fuel) :
    2 ^ halvings fuel n ≤ n ∧ n < 2 ^ (halvings fuel n + 1) := by
  induction fuel generalizing n with
  | zero => omega
  | succ fuel ih =>
    unfold halvings
    by_cases h2 : n < 2
    · rw [if_pos h2]
      simp only [Nat.pow_zero, Nat.zero_add, Nat.pow_one]
      omega
    · rw [if_neg h2]
      obtain ⟨h1, h3⟩ := ih (n / 2) (by omega) (by omega)
      rw [Nat.pow_succ] at h3 ⊢
      rw [Nat.pow_succ]
      omega

/-- The halvings never run out: `floorLog2 n` is the exponent of the largest power of
two that is at most `n`. -/
theorem floorLog2_spec (n : Nat) (hn : 1 ≤ n) :
    2 ^ floorLog2 n ≤ n ∧ n < 2 ^ (floorLog2 n + 1) :=
  halvings_spec n n hn (Nat.le_refl n)

theorem floatDiv_8000 : floatDiv 8000 8000 = 1 := by
  have h : binary32 (floatOfNat 8000) (floatOfNat 8000) = (8388608, 8388608) := by decide
  unfold floatDiv
  rw [h]
  norm_num

/-- Under binary32 arithmetic the conversion of the sample count already rounds:
`(float)16777217 / (float)1` is 16777216. -/
theorem floatDiv_rounds : floatDiv 16777217 1 = 16777216 := by
  have h : binary32 (floatOfNat 16777217) (floatOfNat 1) = (16777216, 1) := by decide
  unfold floatDiv
  rw [h]
  norm_num

/-! ## Claims -/

/-- C1: for every header value the struct can hold, `isWAV` returns (accepts) if and
only if the four tags are "RIFF", "WAVE", "fmt " and "data", fmtSize is 16,
dataFormat is 1, numberOfChannels is 1 or 2, samplesPerSecond is in [1, 192000],
bitsPerSample is 8 or 16, bytesPerSecond = samplesPerSecond × blockAlignment and
blockAlignment = numberOfChannels × (bitsPerSample / 8); and whenever the
channel, rate and bit-depth checks have passed, the 32-bit product of line 111
equals the mathematical product. -/
theorem C1_isWAV_accepts_iff (h : WAVHeader) (hwf : h.WF) :
    (isWAV h = .ok () ↔ SpecValid h) ∧
    ((h.numberOfChannels = 1 ∨ h.numberOfChannels = 2) →
      (1 ≤ h.samplesPerSecond ∧ h.samplesPerSecond ≤ 192000) →
      (h.bitsPerSample = 8 ∨ h.bitsPerSample = 16) →
      isWAV.number h = h.samplesPerSecond * (h.bitsPerSample / 8) * h.numberOfChannels) :=
  ⟨isWAV_ok_iff h hwf, number_no_wrap h⟩

/-- C1 at concrete headers: the stereo 16-bit header is accepted, and the same header
with dataFormat 2, or with three channels, is rejected. -/
theorem C1_isWAV_accepts_iff_witness :
    stereo16.WF ∧ isWAV stereo16 = .ok () ∧ SpecValid stereo16 ∧
    isWAV.number stereo16 = 44100 * (16 / 8) * 2 ∧
    isWAV { stereo16 with dataFormat := 2 } ≠ .ok () ∧
    isWAV { stereo16 with numberOfChannels := 3 } ≠ .ok () := by
  have hv : SpecValid stereo16 := by decide
  have h2 : ({ stereo16 with dataFormat := 2 } : WAVHeader).WF := by decide
  have h3 : ({ stereo16 with numberOfChannels := 3 } : WAVHeader).WF := by decide
  refine ⟨by decide, (C1_isWAV_accepts_iff stereo16 (by decide)).1.2 hv, hv,
    (C1_isWAV_accepts_iff stereo16 (by decide)).2 (by decide) (by decide) (by decide), ?_, ?_⟩
  · exact fun hk => absurd ((C1_isWAV_accepts_iff _ h2).1.1 hk) (by decide)
  · exact fun hk => absurd ((C1_isWAV_accepts_iff _ h3).1.1 hk) (by decide)

/-- C2 (counterexample): the stereo 16-bit header with blockAlignment 4 and
dataSize 6 satisfies every other invariant, 6 is not a multiple of 4, and `isWAV`
accepts it. -/
theorem C2_dataSize_not_checked_counterexample :
    SpecValid stereo16Odd ∧ stereo16Odd.blockAlignment = 4 ∧ stereo16Odd.dataSize = 6 ∧
    stereo16Odd.dataSize % stereo16Odd.blockAlignment ≠ 0 ∧
    isWAV stereo16Odd = .ok () := by
  decide

/-- C2 (amended): `isWAV` does not look at dataSize. A header that satisfies all the
other invariants is accepted whatever its dataSize is, a multiple of
blockAlignment or not. -/
theorem C2_isWAV_accepts_any_dataSize (h : WAVHeader) (hwf : h.WF) (hv : SpecValid h)
    (d : Nat) : isWAV { h with dataSize := d } = .ok () := by
  rw [isWAV_dataSize]
  exact (isWAV_ok_iff h hwf).2 hv

/-- C2 (amended) at the stereo 16-bit header with dataSize 6. -/
theorem C2_isWAV_accepts_any_dataSize_witness :
    stereo16.WF ∧ SpecValid stereo16 ∧ 6 % stereo16.blockAlignment ≠ 0 ∧
    isWAV { stereo16 with dataSize := 6 } = .ok () :=
  ⟨by decide, by decide, by decide,
    C2_isWAV_accepts_any_dataSize stereo16 (by decide) (by decide) 6⟩

/-- C3 (the code at the failing input): a mono 8-bit file whose header passes `isWAV`
and announces `2^31 + 1` one-byte frames, each holding 7.  In reverse mode `main` calls
`reverse1` with that count; `int i = lengthInSamples - 1` is negative, the loop body
never runs, and the file receives the unassigned `reversedArray` (here zeros):
output frame 0 is [0], input frame n - 1 - 0 is [7]. -/
theorem C3_reverse1_huge_count_not_reversed :
    isWAV mono8Huge = .ok () ∧
    mono8Huge.dataSize / mono8Huge.blockAlignment = hugeCount ∧
    (main atoiC (fillMem 0) (some (encode mono8Huge ++ List.replicate hugeCount 7))
        reverseArgs).file.map (fun f => frame 1 (payloadOf f.content) 0) = some [0] ∧
    frame 1 (List.replicate hugeCount 7) (hugeCount - 1 - 0) = [7] := by
  refine ⟨by decide, by decide, ?_, ?_⟩
  · rw [main_reverse_huge _ _ (hugeFile_head _) (hugeFile_length _)]
    simp only [Option.map_some']
    rw [frame_zero_after_huge _ _ (hugeFile_length _)]
    rfl
  · have h := frame_one (List.replicate hugeCount 7) [] (hugeCount - 1 - 0)
      (by rw [List.length_replicate, hugeCount_eq]; decide)
    rw [List.append_nil] at h
    rw [h, List.getElem_replicate]

/-- C4 (the code at the failing input): a valid stereo 16-bit file of 52 bytes with two
frames.  `reverse2` asks `fwrite` for `sizeof(reversedArray)` = 8 elements of 4 bytes:
32 bytes are sent, not 2 × 4 = 8, the 24 extra ones read past the end of the array
(here 170), and the file grows to 76 bytes. -/
theorem C4_reverse2_writes_past_payload :
    isWAV stereo16 = .ok () ∧ stereo16File.length = 52 ∧
    stereo16.dataSize / stereo16.blockAlignment * 4 = 8 ∧
    (main atoiC (fillMem 170) (some stereo16File) reverseArgs).file =
      some ⟨encode stereo16 ++ [5, 6, 7, 8, 1, 2, 3, 4] ++ List.replicate 24 170,
        [(44, [5, 6, 7, 8, 1, 2, 3, 4] ++ List.replicate 24 170)]⟩ := by
  decide

/-- C5 (the code at the failing input): the same file reversed twice.  Both runs send
the unassigned `reversedArray` (here zeros) to the file, so after the second run the
first payload byte is 0, where the original payload has 7. -/
theorem C5_reverse1_twice_huge_count_not_identity :
    (main atoiC (fillMem 0)
        ((main atoiC (fillMem 0) (some (encode mono8Huge ++ List.replicate hugeCount 7))
          reverseArgs).file.map File.content)
        reverseArgs).file.map (fun f => frame 1 (payloadOf f.content) 0) = some [0] ∧
    frame 1 (payloadOf (encode mono8Huge ++ List.replicate hugeCount 7)) 0 = [7] := by
  constructor
  · rw [hugeFile_first_run]
    simp only [Option.map_some']
    rw [hugeFile_second_run]
    simp only [Option.map_some']
    rw [frame_zero_after_huge (fillMem 0) _ (fwrite_length _ _ (hugeFile_length _))]
    rfl
  · rw [payloadOf_append _ _ (by decide)]
    have h := frame_one (List.replicate hugeCount 7) [] 0
      (by rw [List.length_replicate, hugeCount_eq]; decide)
    rw [List.append_nil] at h
    rw [h, List.getElem_replicate]

/-- C6: in reverse mode (three arguments, the third passing the comparison of line 225)
on a file whose header `isWAV` accepts, `main` calls `reverse1` (1-byte elements) for
mono 8-bit, `reverse2` (4-byte elements) for stereo 16-bit, and `reverse3` (2-byte
elements) for mono 16-bit and stereo 8-bit, each with dataSize / blockAlignment. -/
theorem C6_reverse_routine_selection (atoi : List Nat → Int) (mem : Indeterminate)
    (content a0 a1 a2 : List Nat) (hflag : strcmp a2 (cstr " -reverse") ≠ 0)
    (hvalid : isWAV (readFile mem content) = .ok ()) :
    (main atoi mem (some content) [a0, a1, a2]).status = .exit 0 ∧
    ((readFile mem content).numberOfChannels = 1 ∧ (readFile mem content).bitsPerSample = 8 →
      (main atoi mem (some content) [a0, a1, a2]).file = some (reverse1 mem ⟨content, []⟩
        ((readFile mem content).dataSize / (readFile mem content).blockAlignment))) ∧
    ((readFile mem content).numberOfChannels = 2 ∧ (readFile mem content).bitsPerSample = 16 →
      (main atoi mem (some content) [a0, a1, a2]).file = some (reverse2 mem ⟨content, []⟩
        ((readFile mem content).dataSize / (readFile mem content).blockAlignment))) ∧
    (((readFile mem content).numberOfChannels = 1 ∧ (readFile mem content).bitsPerSample = 16) ∨
      ((readFile mem content).numberOfChannels = 2 ∧ (readFile mem content).bitsPerSample = 8) →
      (main atoi mem (some content) [a0, a1, a2]).file = some (reverse3 mem ⟨content, []⟩
        ((readFile mem content).dataSize / (readFile mem content).blockAlignment))) := by
  rw [main_reverse atoi mem content a0 a1 a2 hflag hvalid]
  unfold reverseBranch
  rcases isWAV_blockAlignment _ hvalid with ⟨hc, hb, hk⟩ | ⟨hc, hb, hk⟩ | ⟨hc, hb, hk⟩ |
    ⟨hc, hb, hk⟩ <;> simp [hc, hb, hk]

/-- C6 at the mono 8-bit file, the stereo 16-bit file, and their mono 16-bit and
stereo 8-bit variants, with the flag `-reverse`. -/
theorem C6_reverse_routine_selection_witness :
    strcmp (cstr "-reverse") (cstr " -reverse") ≠ 0 ∧
    isWAV (readFile (fillMem 0) mono8File) = .ok () ∧
    (main atoiC (fillMem 0) (some mono8File) reverseArgs).file =
      some (reverse1 (fillMem 0) ⟨mono8File, []⟩ 4) ∧
    (main atoiC (fillMem 0) (some stereo16File) reverseArgs).file =
      some (reverse2 (fillMem 0) ⟨stereo16File, []⟩ 2) :=
  ⟨by decide, by decide,
    (C6_reverse_routine_selection atoiC (fillMem 0) mono8File (cstr "wavedit") (cstr "a.wav")
      (cstr "-reverse") (by decide) (by decide)).2.1 (by decide),
    (C6_reverse_routine_selection atoiC (fillMem 0) stereo16File (cstr "wavedit") (cstr "a.wav")
      (cstr "-reverse") (by decide) (by decide)).2.2.1 (by decide)⟩

/-- C7: in set-rate mode (four arguments, the third passing the comparison of line 218) on
a file whose header `isWAV` accepts, with a rate argument in [1, 192000], the run
succeeds and the header stored in the file afterwards is the old one with
samplesPerSecond = newRate and bytesPerSecond = newRate × blockAlignment (the
mathematical product), every other field as before; the bytes from offset 44 on are
unchanged and the only write is that of the header. -/
theorem C7_setRate_rewrites_rate_fields (atoi : List Nat → Int) (mem : Indeterminate)
    (content a0 a1 a2 a3 : List Nat) (hflag : strcmp a2 (cstr " -rate") ≠ 0)
    (hwf : (readFile mem content).WF) (hvalid : isWAV (readFile mem content) = .ok ())
    (hrate : 1 ≤ atoi a3 ∧ atoi a3 ≤ 192000) :
    (main atoi mem (some content) [a0, a1, a2, a3]).status = .exit 0 ∧
    ∃ f, (main atoi mem (some content) [a0, a1, a2, a3]).file = some f ∧
      decode (f.content.take sizeofWAVHeader) =
        { readFile mem content with
          samplesPerSecond := (atoi a3).toNat,
          bytesPerSecond := (atoi a3).toNat * (readFile mem content).blockAlignment } ∧
      f.content.drop sizeofWAVHeader = content.drop sizeofWAVHeader ∧
      f.written = [(0, f.content.take sizeofWAVHeader)] := by
  have hwf' := setRate_header_WF _ _ hwf hvalid hrate
  have hlen := encode_length _ hwf'
  rw [main_rate atoi mem content a0 a1 a2 a3 hflag hvalid,
    setRate_in_range atoi _ _ a3 hvalid hrate]
  refine ⟨rfl, _, rfl, ?_, ?_, ?_⟩
  · rw [writeBack_content _ _ hwf', List.take_left' hlen, decode_encode _ hwf']
  · rw [writeBack_content _ _ hwf', List.drop_left' hlen]
  · rw [writeBack_content _ _ hwf', List.take_left' hlen]
    rfl

/-- C7 at the stereo 16-bit 44100 Hz file with `-rate 22050`: the header becomes
samplesPerSecond 22050, bytesPerSecond 88200, and the eight payload bytes stay. -/
theorem C7_setRate_rewrites_rate_fields_witness :
    strcmp (cstr "-rate") (cstr " -rate") ≠ 0 ∧
    (readFile (fillMem 0) stereo16File).WF ∧
    isWAV (readFile (fillMem 0) stereo16File) = .ok () ∧
    (1 ≤ atoiC (cstr "22050") ∧ atoiC (cstr "22050") ≤ 192000) ∧
    (main atoiC (fillMem 0) (some stereo16File) rateArgs).file =
      some ⟨encode { stereo16 with samplesPerSecond := 22050, bytesPerSecond := 88200 }
          ++ [1, 2, 3, 4, 5, 6, 7, 8],
        [(0, encode { stereo16 with samplesPerSecond := 22050, bytesPerSecond := 88200 })]⟩ ∧
    ((main atoiC (fillMem 0) (some stereo16File) rateArgs).status = .exit 0 ∧
      ∃ f, (main atoiC (fillMem 0) (some stereo16File) rateArgs).file = some f ∧
        decode (f.content.take sizeofWAVHeader) =
          { readFile (fillMem 0) stereo16File with
            samplesPerSecond := (atoiC (cstr "22050")).toNat,
            bytesPerSecond := (atoiC (cstr "22050")).toNat *
              (readFile (fillMem 0) stereo16File).blockAlignment } ∧
        f.content.drop sizeofWAVHeader = stereo16File.drop sizeofWAVHeader ∧
        f.written = [(0, f.content.take sizeofWAVHeader)]) :=
  ⟨by decide, by decide, by decide, by decide, by decide,
    C7_setRate_rewrites_rate_fields atoiC (fillMem 0) stereo16File (cstr "wavedit")
      (cstr "a.wav") (cstr "-rate") (cstr "22050") (by decide) (by decide) (by decide)
      (by decide)⟩

/-- C8: in set-rate mode on a file whose header `isWAV` accepts, with `r` the `int`
that `atoi` returns for the rate argument, the file is written if and only if
1 ≤ r ≤ 192000, in which case the run succeeds; for every other `r` (0, 192001,
every negative value) the run exits with failure and the file is unchanged,
nothing having been written. -/
theorem C8_setRate_accepts_iff_in_range (atoi : List Nat → Int) (mem : Indeterminate)
    (content a0 a1 a2 a3 : List Nat) (hflag : strcmp a2 (cstr " -rate") ≠ 0)
    (hvalid : isWAV (readFile mem content) = .ok ())
    (hint : -2 ^ 31 ≤ atoi a3 ∧ atoi a3 < 2 ^ 31) :
    ((∃ f, (main atoi mem (some content) [a0, a1, a2, a3]).file = some f ∧ f.written ≠ []) ↔
      (1 ≤ atoi a3 ∧ atoi a3 ≤ 192000)) ∧
    ((1 ≤ atoi a3 ∧ atoi a3 ≤ 192000) →
      (main atoi mem (some content) [a0, a1, a2, a3]).status = .exit 0) ∧
    (¬(1 ≤ atoi a3 ∧ atoi a3 ≤ 192000) →
      (main atoi mem (some content) [a0, a1, a2, a3]).status = .exit EXIT_FAILURE ∧
      (main atoi mem (some content) [a0, a1, a2, a3]).file = some ⟨content, []⟩) := by
  rw [main_rate atoi mem content a0 a1 a2 a3 hflag hvalid]
  by_cases hrate : 1 ≤ atoi a3 ∧ atoi a3 ≤ 192000
  · rw [setRate_in_range atoi _ _ a3 hvalid hrate]
    refine ⟨⟨fun _ => hrate, fun _ => ⟨_, rfl, ?_⟩⟩, fun _ => rfl, fun h => absurd hrate h⟩
    simp [writeBack, fwrite]
  · rw [setRate_out_of_range atoi _ _ a3 hint hrate]
    refine ⟨⟨?_, fun h => absurd h hrate⟩, fun h => absurd h hrate, fun _ => ⟨rfl, rfl⟩⟩
    rintro ⟨f, hf, hw⟩
    simp only [Option.some.injEq] at hf
    rw [← hf] at hw
    exact absurd rfl hw

/-- C8 at the stereo 16-bit file with the rate arguments 0, 192001 and -5: each run
exits with failure and leaves the file as it was. -/
theorem C8_setRate_accepts_iff_in_range_witness :
    strcmp (cstr "-rate") (cstr " -rate") ≠ 0 ∧
    isWAV (readFile (fillMem 0) stereo16File) = .ok () ∧
    atoiC (cstr "0") = 0 ∧ atoiC (cstr "192001") = 192001 ∧ atoiC (cstr "-5") = -5 ∧
    ((main atoiC (fillMem 0) (some stereo16File)
        [cstr "wavedit", cstr "a.wav", cstr "-rate", cstr "0"]).status = .exit EXIT_FAILURE ∧
      (main atoiC (fillMem 0) (some stereo16File)
        [cstr "wavedit", cstr "a.wav", cstr "-rate", cstr "0"]).file =
          some ⟨stereo16File, []⟩) ∧
    ((main atoiC (fillMem 0) (some stereo16File)
        [cstr "wavedit", cstr "a.wav", cstr "-rate", cstr "192001"]).status =
          .exit EXIT_FAILURE ∧
      (main atoiC (fillMem 0) (some stereo16File)
        [cstr "wavedit", cstr "a.wav", cstr "-rate", cstr "192001"]).file =
          some ⟨stereo16File, []⟩) ∧
    ((main atoiC (fillMem 0) (some stereo16File)
        [cstr "wavedit", cstr "a.wav", cstr "-rate", cstr "-5"]).status = .exit EXIT_FAILURE ∧
      (main atoiC (fillMem 0) (some stereo16File)
        [cstr "wavedit", cstr "a.wav", cstr "-rate", cstr "-5"]).file =
          some ⟨stereo16File, []⟩) ∧
    (main atoiC (fillMem 0) (some stereo16File) rateArgs).status = .exit 0 :=
  ⟨by decide, by decide, by decide, by decide, by decide,
    (C8_setRate_accepts_iff_in_range atoiC (fillMem 0) stereo16File (cstr "wavedit")
      (cstr "a.wav") (cstr "-rate") (cstr "0") (by decide) (by decide) (by decide)).2.2
      (by decide),
    (C8_setRate_accepts_iff_in_range atoiC (fillMem 0) stereo16File (cstr "wavedit")
      (cstr "a.wav") (cstr "-rate") (cstr "192001") (by decide) (by decide) (by decide)).2.2
      (by decide),
    (C8_setRate_accepts_iff_in_range atoiC (fillMem 0) stereo16File (cstr "wavedit")
      (cstr "a.wav") (cstr "-rate") (cstr "-5") (by decide) (by decide) (by decide)).2.2
      (by decide),
    (C8_setRate_accepts_iff_in_range atoiC (fillMem 0) stereo16File (cstr "wavedit")
      (cstr "a.wav") (cstr "-rate") (cstr "22050") (by decide) (by decide) (by decide)).2.1
      (by decide)⟩

/-- C9: when the header read from the file is rejected by `isWAV`, every run that names
the file (report, set-rate, reverse or any other argument vector with at least the
path) exits with `EXIT_FAILURE` after printing the invalid-file message, and the
file is unchanged, nothing having been written. -/
theorem C9_invalid_header_no_write (atoi : List Nat → Int) (mem : Indeterminate)
    (content : List Nat) (argv : List (List Nat)) (hargs : 2 ≤ argv.length)
    (hinvalid : isWAV (readFile mem content) ≠ .ok ()) :
    (main atoi mem (some content) argv).status = .exit EXIT_FAILURE ∧
    (main atoi mem (some content) argv).stdout = [.invalidWAV] ∧
    (main atoi mem (some content) argv).file = some ⟨content, []⟩ := by
  rw [main_invalid atoi mem content argv hargs hinvalid]
  exact ⟨rfl, rfl, rfl⟩

/-- C9 at a file whose header has dataFormat 2, run with `-rate 22050`. -/
theorem C9_invalid_header_no_write_witness :
    2 ≤ rateArgs.length ∧ isWAV (readFile (fillMem 0) stereo16Format2File) ≠ .ok () ∧
    ((main atoiC (fillMem 0) (some stereo16Format2File) rateArgs).status = .exit EXIT_FAILURE ∧
      (main atoiC (fillMem 0) (some stereo16Format2File) rateArgs).stdout = [.invalidWAV] ∧
      (main atoiC (fillMem 0) (some stereo16Format2File) rateArgs).file =
        some ⟨stereo16Format2File, []⟩) :=
  ⟨by decide, by decide,
    C9_invalid_header_no_write atoiC (fillMem 0) stereo16Format2File rateArgs (by decide)
      (by decide)⟩

/-- C10: the struct read of `readFile` and the struct write of `writeBack` are mutually
inverse.  For every 44-byte buffer `b`, encode (decode b) = b, and writing back the
struct read from a file consisting of `b` gives `b`; for every struct value `h`,
decode (encode h) = h, and reading the file after `h` has been written back gives `h`. -/
theorem C10_encode_decode_inverse :
    (∀ (mem : Indeterminate) (b : List Nat), b.length = sizeofWAVHeader → (∀ x ∈ b, x < 256) →
      encode (decode b) = b ∧ (writeBack ⟨b, []⟩ (readFile mem b)).content = b) ∧
    (∀ (mem : Indeterminate) (file : File) (h : WAVHeader), h.WF →
      decode (encode h) = h ∧ readFile mem (writeBack file h).content = h) := by
  constructor
  · intro mem b hlen hb
    have hr : readFile mem b = decode b := by
      unfold readFile
      rw [if_pos (by omega), List.take_of_length_le (by omega)]
    refine ⟨encode_decode b hlen hb, ?_⟩
    have hd : List.drop (0 + (encode (decode b)).length) b = [] := by
      rw [encode_decode b hlen hb]
      exact List.drop_of_length_le (by omega)
    rw [hr]
    simp only [writeBack, fwrite, hd, List.take_zero, List.nil_append, List.append_nil,
      Nat.zero_sub, List.replicate_zero]
    exact encode_decode b hlen hb
  · intro mem file h hwf
    refine ⟨decode_encode h hwf, ?_⟩
    have hlen := encode_length h hwf
    unfold readFile
    rw [writeBack_content file h hwf, if_pos (by rw [List.length_append]; omega),
      List.take_left' hlen, decode_encode h hwf]

/-- C10 at the bytes of the stereo 16-bit header and at that header. -/
theorem C10_encode_decode_inverse_witness :
    (encode stereo16).length = sizeofWAVHeader ∧ (∀ x ∈ encode stereo16, x < 256) ∧
    stereo16.WF ∧
    (encode (decode (encode stereo16)) = encode stereo16 ∧
      (writeBack ⟨encode stereo16, []⟩ (readFile (fillMem 0) (encode stereo16))).content =
        encode stereo16) ∧
    (decode (encode stereo16) = stereo16 ∧
      readFile (fillMem 0) (writeBack ⟨mono8File, []⟩ stereo16).content = stereo16) :=
  ⟨by decide, by decide, by decide,
    C10_encode_decode_inverse.1 (fillMem 0) (encode stereo16) (by decide) (by decide),
    C10_encode_decode_inverse.2 (fillMem 0) ⟨mono8File, []⟩ stereo16 (by decide)⟩

/-- C11: for every 44-byte buffer, the struct that `readFile` leaves in `header` has riffId
at bytes 0-3, fileSize as the little-endian integer of bytes 4-7, waveId at 8-11, fmtId at
12-15, fmtSize at 16-19, dataFormat at 20-21, numberOfChannels at 22-23,
samplesPerSecond at 24-27, bytesPerSecond at 28-31, blockAlignment at 32-33,
bitsPerSample at 34-35, dataId at 36-39 and dataSize at 40-43; these offsets are the
ones C struct layout assigns to the declared members, whose sizes sum to 44, and the
struct has size 44, so there is no padding. -/
theorem C11_decode_layout (mem : Indeterminate) (b : List Nat)
    (hlen : b.length = sizeofWAVHeader) :
    readFile mem b = specDecode b ∧ decode b = specDecode b ∧
    memberOffsets WAVHeader.members 0 = [0, 4, 8, 12, 16, 20, 22, 24, 28, 32, 34, 36, 40] ∧
    (WAVHeader.members.map Prod.fst).sum = 44 ∧
    structSize WAVHeader.members = sizeofWAVHeader := by
  refine ⟨?_, decode_eq_specDecode b hlen, by decide, by decide, by decide⟩
  unfold readFile
  rw [if_pos (by omega), List.take_of_length_le (by omega), decode_eq_specDecode b hlen]

/-- C11 at the bytes of the stereo 16-bit header: the fields read from them are those
of the header. -/
theorem C11_decode_layout_witness :
    (encode stereo16).length = sizeofWAVHeader ∧
    specDecode (encode stereo16) = stereo16 ∧
    (readFile (fillMem 0) (encode stereo16) = specDecode (encode stereo16) ∧
      decode (encode stereo16) = specDecode (encode stereo16) ∧
      memberOffsets WAVHeader.members 0 = [0, 4, 8, 12, 16, 20, 22, 24, 28, 32, 34, 36, 40] ∧
      (WAVHeader.members.map Prod.fst).sum = 44 ∧
      structSize WAVHeader.members = sizeofWAVHeader) :=
  ⟨by decide, by decide, C11_decode_layout (fillMem 0) (encode stereo16) (by decide)⟩

/-- C12 (the code at the failing input): on a valid mono 8-bit file, `wavedit a.wav foo`,
whose second argument is not the reverse flag, reverses the payload in the file and
returns 0; and `wavedit a.wav " -reverse"`, the one string the comparison of line 225
turns away, prints the arguments message and also returns 0. -/
theorem C12_unrecognised_flag_reverses_file :
    isWAV (readFile (fillMem 0) mono8File) = .ok () ∧
    cstr "foo" ≠ cstr "-reverse" ∧
    main atoiC (fillMem 0) (some mono8File) [cstr "wavedit", cstr "a.wav", cstr "foo"] =
      { status := .exit 0, stdout := [],
        file := some ⟨encode mono8 ++ [4, 3, 2, 1], [(44, [4, 3, 2, 1])]⟩ } ∧
    main atoiC (fillMem 0) (some mono8File) [cstr "wavedit", cstr "a.wav", cstr " -reverse"] =
      { status := .exit 0, stdout := [.argumentsNotFound], file := some ⟨mono8File, []⟩ } := by
  decide

/-- C13: `isWAV` accepts the minimal canonical header (riffId "RIFF", waveId "WAVE",
fmtId "fmt ", fmtSize 16, dataFormat 1, one channel, 44100 samples per second, 8 bits
per sample, blockAlignment 1, bytesPerSecond 44100, dataId "data", dataSize 4),
whatever its fileSize. -/
theorem C13_isWAV_accepts_canonical (fileSize : Nat) :
    isWAV (canonicalHeader fileSize) = .ok () := by
  have h : isWAV (canonicalHeader fileSize) = isWAV (canonicalHeader 0) := rfl
  rw [h]
  decide

/-- C14: for every header `isWAV` accepts, `printInfo` reports bitsPerSample,
samplesPerSecond, a sample count equal to dataSize / blockAlignment rounded down
(sampleCount × blockAlignment ≤ dataSize < (sampleCount + 1) × blockAlignment), and
mono exactly when numberOfChannels = 1; the duration is the `float` quotient of that
sample count by samplesPerSecond, which is not zero. -/
theorem C14_report_sample_count (fdiv : Nat → Nat → Rat) (h : WAVHeader)
    (hvalid : isWAV h = .ok ()) :
    ∃ sampleCount mono,
      printInfo h = some (.info h.bitsPerSample h.samplesPerSecond mono sampleCount) ∧
      sampleCount = h.dataSize / h.blockAlignment ∧
      sampleCount * h.blockAlignment ≤ h.dataSize ∧
      h.dataSize < (sampleCount + 1) * h.blockAlignment ∧
      (mono = true ↔ h.numberOfChannels = 1) ∧
      h.samplesPerSecond ≠ 0 ∧
      printInfo.lengthInSeconds fdiv h = fdiv sampleCount h.samplesPerSecond := by
  refine ⟨h.dataSize / h.blockAlignment, decide (h.numberOfChannels = 1),
    printInfo_valid h hvalid, rfl, Nat.div_mul_le_self _ _, ?_, by simp, ?_, rfl⟩
  · rcases isWAV_blockAlignment h hvalid with ⟨-, -, hk⟩ | ⟨-, -, hk⟩ | ⟨-, -, hk⟩ |
      ⟨-, -, hk⟩ <;> rw [hk] <;> omega
  · rw [isWAV_ok_iff_checks] at hvalid
    have := hvalid.2.2.2.2.2.2.2.1.1
    omega

/-- C14 at the mono 8-bit header with samplesPerSecond 8000, blockAlignment 1 and
dataSize 8000: the report gives 8000 samples, and the binary32 quotient of 8000 by
8000 is exactly 1. -/
theorem C14_report_sample_count_witness :
    isWAV mono8k = .ok () ∧ mono8k.samplesPerSecond = 8000 ∧ mono8k.blockAlignment = 1 ∧
    mono8k.dataSize = 8000 ∧
    printInfo mono8k = some (.info 8 8000 true 8000) ∧
    printInfo.lengthInSeconds floatDiv mono8k = 1 ∧
    (∃ sampleCount mono,
      printInfo mono8k =
        some (.info mono8k.bitsPerSample mono8k.samplesPerSecond mono sampleCount) ∧
      sampleCount = mono8k.dataSize / mono8k.blockAlignment ∧
      sampleCount * mono8k.blockAlignment ≤ mono8k.dataSize ∧
      mono8k.dataSize < (sampleCount + 1) * mono8k.blockAlignment ∧
      (mono = true ↔ mono8k.numberOfChannels = 1) ∧
      mono8k.samplesPerSecond ≠ 0 ∧
      printInfo.lengthInSeconds floatDiv mono8k = floatDiv sampleCount mono8k.samplesPerSecond) :=
  ⟨by decide, by decide, by decide, by decide, by decide, floatDiv_8000,
    C14_report_sample_count floatDiv mono8k (by decide)⟩

/-- C15: when `isWAV` accepts a header and `checkRate` accepts the new rate, the set-rate
branch writes back the header with samplesPerSecond := newRate and bytesPerSecond :=
newRate * bitsPerSample / 8 * numberOfChannels (in `unsigned int`), and `isWAV` accepts
that header. -/
theorem C15_setRate_preserves_validity (atoi : List Nat → Int) (file : File) (h : WAVHeader)
    (arg : List Nat) (hvalid : isWAV h = .ok ())
    (hrate : checkRate (toUInt32 (atoi arg)) = .ok ()) :
    setRate atoi file h arg = .ok (writeBack file
      { h with
        samplesPerSecond := toUInt32 (atoi arg),
        bytesPerSecond :=
          (toUInt32 (atoi arg) * h.bitsPerSample % 2 ^ 32 / 8 * h.numberOfChannels) % 2 ^ 32 }) ∧
    isWAV { h with
      samplesPerSecond := toUInt32 (atoi arg),
      bytesPerSecond :=
        (toUInt32 (atoi arg) * h.bitsPerSample % 2 ^ 32 / 8 * h.numberOfChannels) % 2 ^ 32 }
      = .ok () := by
  constructor
  · unfold setRate
    simp only [hrate]
  · have hr := (checkRate_ok_iff _).1 hrate
    rw [isWAV_ok_iff_checks] at hvalid ⊢
    obtain ⟨a1, a2, a3, a4, a5, a6, hc, -, hb, -, hk⟩ := hvalid
    refine ⟨a1, a2, a3, a4, a5, a6, hc, hr, hb, ?_, hk⟩
    show (toUInt32 (atoi arg) * h.bitsPerSample % 2 ^ 32 / 8 * h.numberOfChannels) % 2 ^ 32 =
      (toUInt32 (atoi arg) * (h.bitsPerSample / 8) % 2 ^ 32 * h.numberOfChannels) % 2 ^ 32
    rcases hc with hc | hc <;> rcases hb with hb | hb <;> rw [hc, hb] <;> omega

/-- C15 at the stereo 16-bit header with the rate argument 22050. -/
theorem C15_setRate_preserves_validity_witness :
    isWAV stereo16 = .ok () ∧ checkRate (toUInt32 (atoiC (cstr "22050"))) = .ok () ∧
    isWAV { stereo16 with samplesPerSecond := 22050, bytesPerSecond := 88200 } = .ok () ∧
    isWAV { stereo16 with
      samplesPerSecond := toUInt32 (atoiC (cstr "22050")),
      bytesPerSecond :=
        (toUInt32 (atoiC (cstr "22050")) * stereo16.bitsPerSample % 2 ^ 32 / 8
          * stereo16.numberOfChannels) % 2 ^ 32 } = .ok () :=
  ⟨by decide, by decide, by decide,
    (C15_setRate_preserves_validity atoiC ⟨stereo16File, []⟩ stereo16 (cstr "22050")
      (by decide) (by decide)).2⟩

/-- C16: for every header `isWAV` accepts, blockAlignment is 1, 4 or 2 and the routine the
reverse branch calls is the one whose arrays have elements of blockAlignment bytes
(`reverse1` for 1, `reverse2` for 4, `reverse3` for 2), called with the count
dataSize / blockAlignment, the number of whole elements of that width in dataSize
bytes. -/
theorem C16_routine_width_is_blockAlignment (mem : Indeterminate) (file : File)
    (h : WAVHeader) (hvalid : isWAV h = .ok ()) :
    reverseBranch mem file h =
      some (reverseBody h.blockAlignment mem file (h.dataSize / h.blockAlignment)) ∧
    ((h.blockAlignment = 1 ∧
        reverseBranch mem file h = some (reverse1 mem file (h.dataSize / h.blockAlignment))) ∨
      (h.blockAlignment = 4 ∧
        reverseBranch mem file h = some (reverse2 mem file (h.dataSize / h.blockAlignment))) ∨
      (h.blockAlignment = 2 ∧
        reverseBranch mem file h = some (reverse3 mem file (h.dataSize / h.blockAlignment)))) ∧
    h.dataSize / h.blockAlignment * h.blockAlignment ≤ h.dataSize ∧
    h.dataSize < (h.dataSize / h.blockAlignment + 1) * h.blockAlignment := by
  have hrb := reverseBranch_valid mem file h hvalid
  refine ⟨hrb, ?_, ?_, ?_⟩
  · rw [hrb]
    rcases isWAV_blockAlignment h hvalid with ⟨-, -, hk⟩ | ⟨-, -, hk⟩ | ⟨-, -, hk⟩ |
      ⟨-, -, hk⟩
    · exact Or.inl ⟨hk, by rw [hk]; rfl⟩
    · exact Or.inr (Or.inl ⟨hk, by rw [hk]; rfl⟩)
    · exact Or.inr (Or.inr ⟨hk, by rw [hk]; rfl⟩)
    · exact Or.inr (Or.inr ⟨hk, by rw [hk]; rfl⟩)
  · exact Nat.div_mul_le_self _ _
  · rcases isWAV_blockAlignment h hvalid with ⟨-, -, hk⟩ | ⟨-, -, hk⟩ | ⟨-, -, hk⟩ |
      ⟨-, -, hk⟩ <;> rw [hk] <;> omega

/-- C16 at the stereo 16-bit header: blockAlignment 4, `reverse2`, two elements. -/
theorem C16_routine_width_is_blockAlignment_witness :
    isWAV stereo16 = .ok () ∧ stereo16.blockAlignment = 4 ∧
    reverseBranch (fillMem 0) ⟨stereo16File, []⟩ stereo16 =
      some (reverseBody stereo16.blockAlignment (fillMem 0) ⟨stereo16File, []⟩
        (stereo16.dataSize / stereo16.blockAlignment)) :=
  ⟨by decide, by decide,
    (C16_routine_width_is_blockAlignment (fillMem 0) ⟨stereo16File, []⟩ stereo16
      (by decide)).1⟩

/-- C17: every header `isWAV` accepts has blockAlignment 1, 2 or 4 and samplesPerSecond
at least 1, so the division of line 89 in `printInfo` and the division of line 226 in
the reverse branch have a nonzero divisor, as has the division by samplesPerSecond
of line 90; and no run of `main`, whatever the file and the arguments, ends in a
division by zero. -/
theorem C17_no_division_by_zero (h : WAVHeader) (hvalid : isWAV h = .ok ()) :
    (h.blockAlignment = 1 ∨ h.blockAlignment = 2 ∨ h.blockAlignment = 4) ∧
    1 ≤ h.samplesPerSecond ∧
    printInfo h ≠ none ∧
    (∀ (mem : Indeterminate) (file : File), reverseBranch mem file h ≠ none) ∧
    (∀ (atoi : List Nat → Int) (mem : Indeterminate) (disk : Option (List Nat))
      (argv : List (List Nat)), (main atoi mem disk argv).status ≠ .divisionByZero) := by
  refine ⟨?_, ?_, ?_, ?_, main_status_ne_divisionByZero⟩
  · rcases isWAV_blockAlignment h hvalid with ⟨-, -, hk⟩ | ⟨-, -, hk⟩ | ⟨-, -, hk⟩ |
      ⟨-, -, hk⟩ <;> simp [hk]
  · rw [isWAV_ok_iff_checks] at hvalid
    exact hvalid.2.2.2.2.2.2.2.1.1
  · rw [printInfo_valid h hvalid]
    simp
  · intro mem file
    rw [reverseBranch_valid mem file h hvalid]
    simp

/-- C17 at the stereo 16-bit header. -/
theorem C17_no_division_by_zero_witness :
    isWAV stereo16 = .ok () ∧ stereo16.blockAlignment = 4 ∧ stereo16.samplesPerSecond = 44100 ∧
    printInfo stereo16 ≠ none :=
  ⟨by decide, by decide, by decide, (C17_no_division_by_zero stereo16 (by decide)).2.2.1⟩

end WAVEdit
